import Mathlib

/-!
Verification of the h5obj repository: a shallow embedding of the legacy
type-tagging encoder/decoder pair `obj2hdf`/`hdf2obj`
(src/old/h5obj_old.py), of the simplified wrapper `Group.__getitem__`/
`Group.__setitem__` (src/__init__.py), and of the CLI helpers `h5save`
and `divide` (src/tools.py).

Python values are modelled by the inductive `PyVal`; the only facts about
a value the source ever inspects are its type (identity of the class, its
`__name__`), whether it has an `__iter__` attribute and whether it has a
`__dict__` attribute, all of which are derived functions on `PyVal`.
HDF5 files are modelled as trees of datasets and groups with the four
attributes the encoder writes.  External collaborators (cPickle, the
current time) are a `PickleEnv` parameter; h5py's native-array conversion
is modelled by `mkNativeArray`.  Machine floats and complex numbers are
carried as opaque tokens (`Int` ids): no claim depends on float
arithmetic, only on values being stored and retrieved unchanged.
-/

namespace H5Obj

/-- Python exceptions raised by the modelled code paths, including the
classes `cPickle.loads` can raise on an undecodable payload:
`UnpicklingError` (not a `ValueError` subclass), `EOFError` on
truncated data, and `ImportError` when the pickled class is not
importable. -/
inductive PyErr where
| typeError (msg : String)
| valueError (msg : String)
| keyError (msg : String)
| attributeError (msg : String)
| indexError (msg : String)
| unpicklingError (msg : String)
| eofError (msg : String)
| importError (msg : String)
deriving DecidableEq, Repr

/-- A Python dict key: the model covers string keys (the only kind
`obj2hdf` can pass through `**data` keyword expansion) and int keys
(used to exercise the non-string-key behaviour). -/
inductive PyKey where
| kstr (s : String)
| kint (n : Int)
deriving DecidableEq, Repr

/-- The seven scipy sparse-matrix subformats; `scipy.sparse.issparse` is
true exactly for instances of these classes. -/
inductive SparseFmt where
| csc | csr | bsr | lil | dok | coo | dia
deriving DecidableEq, Repr

/-- Class name (`type(m).__name__`) of a sparse matrix of the given
subformat. -/
def sparseName : SparseFmt → String
| .csc => "csc_matrix"
| .csr => "csr_matrix"
| .bsr => "bsr_matrix"
| .lil => "lil_matrix"
| .dok => "dok_matrix"
| .coo => "coo_matrix"
| .dia => "dia_matrix"

/-- The Python value universe handled by the encoder.  `pyfloat` and
`pycomplex` carry opaque tokens.  `pyndarray`/`pymatrix` model 1-D
numeric arrays by their element list (`pyndarray []` is the empty
array).  `pysparse` carries the subformat tag together with the CSR
decomposition of the matrix (`data`, `indices`, `indptr` arrays and
the `shape` tuple) — `tocsr()` is format conversion, so the CSR parts
determine the matrix.  `pyinst` is an instance of a user-defined class:
its class name, whether the class defines `__iter__`, whether the
instance has a `__dict__`, and an opaque identity token.  `pyclassobj`
is a class object itself (such as a sparse-matrix class), `pybundle`
the external `bundle.Bundle` string-keyed mapping. -/
inductive PyVal where
| pynone
| pybool (b : Bool)
| pyint (n : Int)
| pylong (n : Int)
| pyfloat (t : Int)
| pycomplex (t : Int)
| pystr (s : String)
| pylist (xs : List PyVal)
| pytuple (xs : List PyVal)
| pyset (xs : List PyVal)
| pyfrozenset (xs : List PyVal)
| pydict (kvs : List (PyKey × PyVal))
| pyndarray (xs : List PyVal)
| pymatrix (xs : List PyVal)
| pysparse (fmt : SparseFmt) (sdata sindices sindptr sshape : PyVal)
| pybundle (kvs : List (String × PyVal))
| pycofunc (x y a : PyVal)
| pycofunc2d (x y z a : PyVal)
| pyclassobj (cls : String)
| pyinst (cls : String) (iter hasdict : Bool) (t : Nat)

/-- The runtime type name, `type(v).__name__`. -/
def typeName : PyVal → String
| .pynone => "NoneType"
| .pybool _ => "bool"
| .pyint _ => "int"
| .pylong _ => "long"
| .pyfloat _ => "float"
| .pycomplex _ => "complex"
| .pystr _ => "str"
| .pylist _ => "list"
| .pytuple _ => "tuple"
| .pyset _ => "set"
| .pyfrozenset _ => "frozenset"
| .pydict _ => "dict"
| .pyndarray _ => "ndarray"
| .pymatrix _ => "matrix"
| .pysparse fmt _ _ _ _ => sparseName fmt
| .pybundle _ => "Bundle"
| .pycofunc _ _ _ => "coFunc"
| .pycofunc2d _ _ _ _ => "coFunc2d"
| .pyclassobj _ => "type"
| .pyinst cls _ _ _ => cls

/-- Embeds `_isiterable` (h5obj_old.py line 413): whether
`getattr(obj, "__iter__", False)` is non-falsy.  Containers, dicts,
numpy arrays and scipy sparse matrices define `__iter__`; scalars,
strings, `bool`, `None`, class objects and the curve-function objects
do not; for a user-class instance it is the class's choice. -/
def isIterable : PyVal → Bool
| .pylist _ => true
| .pytuple _ => true
| .pyset _ => true
| .pyfrozenset _ => true
| .pydict _ => true
| .pyndarray _ => true
| .pymatrix _ => true
| .pysparse _ _ _ _ _ => true
| .pybundle _ => true
| .pyinst _ iter _ _ => iter
| _ => false

/-- Embeds `_isobject` (h5obj_old.py line 428): whether
`getattr(obj, "__dict__", False)` is non-falsy.  Instances of
user-defined classes have a `__dict__` unless the class uses
`__slots__`; class objects, `Bundle`, sparse matrices and the
curve-function objects carry one; built-in values and numpy arrays do
not. -/
def isObject : PyVal → Bool
| .pysparse _ _ _ _ _ => true
| .pybundle _ => true
| .pycofunc _ _ _ => true
| .pycofunc2d _ _ _ _ => true
| .pyclassobj _ => true
| .pyinst _ _ hasdict _ => hasdict
| _ => false

/-- Embeds `_allscalar` (h5obj_old.py lines 383-390).  The source's
`return True` sits inside the `for` loop, so the function returns
during the first iteration: `False` if the first element is iterable,
`True` otherwise.  On an empty sequence the loop body never runs and
the function falls through, returning Python `None` — modelled as
`Option.none`. -/
def allscalar : List PyVal → Option Bool
| [] => Option.none
| x :: _ => some (!(isIterable x))

/-- Truthiness of the `_allscalar` result (`None` is falsy). -/
def allscalarTruthy (xs : List PyVal) : Bool :=
  match allscalar xs with
  | some b => b
  | Option.none => false

/-- Embeds `_anyobject` (h5obj_old.py lines 392-400): whether any
element is an instance of a user-defined class (has a `__dict__`). -/
def anyobject (xs : List PyVal) : Bool := xs.any isObject

/-- Embeds `_equaltype` (h5obj_old.py lines 402-411): `seq.pop()`
removes the last element and every remaining element's type name is
compared against it.  `pop` on an empty list raises IndexError. -/
def equaltype (xs : List PyVal) : Except PyErr Bool :=
  match xs.getLast? with
  | Option.none => .error (.indexError "pop from empty list")
  | some first => .ok (xs.dropLast.all (fun x => typeName x == typeName first))

/-- The composite guard of the list/tuple branch (h5obj_old.py line 86):
`_allscalar(data) and _equaltype(data) and not _anyobject(data)`, with
Python's left-to-right short-circuit evaluation. -/
def seqNativeTest (xs : List PyVal) : Except PyErr Bool :=
  if allscalarTruthy xs then do
    let et ← equaltype xs
    if et then pure (!(anyobject xs)) else pure false
  else pure false

/-- The composite guard of the set/frozenset branch (h5obj_old.py line
106): `_allscalar(data) and _equaltype(data)` (no `_anyobject` check). -/
def setNativeTest (xs : List PyVal) : Except PyErr Bool :=
  if allscalarTruthy xs then equaltype xs else pure false

/-- The HDF5 attributes written by `obj2hdf` (h5obj_old.py lines
160-164): `__DTYPE__`, `__NTYPE__`, the `DATE` timestamp and
`__PICKLED__`.  Attributes absent on a node (for example on datasets
created by the simplified wrapper) are `Option.none`; `pickled` is the
result of `attrs.get("__PICKLED__", False)`, whose default is `False`. -/
structure HAttrs where
  dty : Option String
  nty : Option String
  date : Option String
  pickled : Bool
deriving DecidableEq, Repr

/-- The native payload of an HDF5 dataset: strings, scalars, a 1-D
array created from a list/tuple of scalars (`parr`), or a 2-D array
created from a numpy matrix (`pmat`).  Storage is modelled as exact:
what was written is what is read back. -/
inductive HPayload where
| pstr (s : String)
| pbool (b : Bool)
| pint (n : Int)
| pfloat (t : Int)
| pcomplex (t : Int)
| parr (xs : List PyVal)
| pmat (xs : List PyVal)

/-- A node of an HDF5 file: a dataset or a group of named children. -/
inductive HNode where
| dset (a : HAttrs) (p : HPayload)
| group (a : HAttrs) (children : List (String × HNode))

/-- Attributes of a node. -/
def attrsOf : HNode → HAttrs
| .dset a _ => a
| .group a _ => a

/-- External capabilities: cPickle (`dumps`/`loads`, with `loads`
returning `Option.none` when the payload cannot be deserialized, in
which case `loadErr` is the exception `cPickle.loads` raises on that
payload — a `ValueError`, or an exception of another class such as
`UnpicklingError`, `EOFError` or `ImportError`) and the `time.ctime()`
timestamp. -/
structure PickleEnv where
  dumps : PyVal → String
  loads : String → Option PyVal
  loadErr : String → PyErr
  ctime : String

/-- The `Node.value` read from a dataset payload (h5py's `obj.value`):
reading back a native array dataset yields a numpy array. -/
def payloadVal : HPayload → PyVal
| .pstr s => .pystr s
| .pbool b => .pybool b
| .pint n => .pyint n
| .pfloat t => .pyfloat t
| .pcomplex t => .pycomplex t
| .parr xs => .pyndarray xs
| .pmat xs => .pyndarray xs

/-- Whether h5py can store this value as an element of a native array. -/
def isH5Scalar : PyVal → Bool
| .pybool _ => true
| .pyint _ => true
| .pylong _ => true
| .pyfloat _ => true
| .pycomplex _ => true
| .pystr _ => true
| _ => false

/-- Models `create_dataset(name, data=seq)` on a list/tuple: h5py
converts a sequence of storable scalars to a native 1-D array and
raises TypeError (here `Option.none`) on anything else, for example a
list of `None` values or of class instances. -/
def mkNativeArray (xs : List PyVal) : Option HPayload :=
  if xs.all isH5Scalar then some (.parr xs) else Option.none

/-- The attributes `obj2hdf` attaches to every node it creates
(h5obj_old.py lines 160-164).  `__NTYPE__` is the type name of the
node's name; names reach `obj2hdf` as keyword arguments, which in
Python are always `str`. -/
def mkAttrs (env : PickleEnv) (dty : String) (pickled : Bool) : HAttrs :=
  ⟨some dty, some "str", some env.ctime, pickled⟩

/-- Helper for `decRepr`: big-endian decimal digits of the second
argument, recursing on a fuel bound (any fuel at least the value
itself is enough). -/
def decAux : Nat → Nat → List Char
| _, 0 => []
| 0, _ + 1 => []
| fuel + 1, m + 1 => decAux fuel ((m + 1) / 10) ++ [Nat.digitChar ((m + 1) % 10)]

/-- Decimal representation of a natural number, `str(m)`, as characters. -/
def decRepr (m : Nat) : List Char :=
  if m = 0 then ['0'] else decAux m m

/-- Length of `str(m)` for a natural number: the number of decimal
digits. -/
def pyLen (m : Nat) : Nat := (decRepr m).length

/-- Zero padding to width `w`, as performed by the `"%0*.*i"` format. -/
def pyZeroPad (w : Nat) (s : List Char) : List Char :=
  List.replicate (w - s.length) '0' ++ s

/-- The child name `"key%0*.*i" % ((digits,)*2+(k,))` used for element
`k` of a sequence stored as a group (h5obj_old.py lines 100-101):
`"key"` followed by `k` zero-padded to width `digits`. -/
def seqKey (digits k : Nat) : String :=
  ⟨['k', 'e', 'y'] ++ pyZeroPad digits (decRepr k)⟩

/-- The list of child names for a sequence of length `n`:
`digits = len(str(n-1)) if n > 0 else 1`. -/
def seqKeys (n : Nat) : List String :=
  (List.range n).map (fun k => seqKey (if n > 0 then pyLen (n - 1) else 1) k)

/-- Byte-wise lexicographic strict comparison of strings (Python 2
`str` comparison restricted to ASCII names). -/
def lexLtB : List Char → List Char → Bool
| _, [] => false
| [], _ :: _ => true
| a :: as, b :: bs => decide (a < b) || (decide (a = b) && lexLtB as bs)

/-- The order in which `hdf2obj` visits the children of a group that
encodes a list or tuple: `keys = obj.keys(); keys.sort()` (h5obj_old.py
lines 243-244), modelled as an insertion sort of the (name, child)
pairs by name. -/
def sortPairs {α : Type} (ps : List (String × α)) : List (String × α) :=
  List.insertionSort (fun p q => lexLtB q.1.data p.1.data = false) ps

/-- Whether a dict key is a string. -/
def isStrKey : PyKey → Bool
| .kstr _ => true
| .kint _ => false

/-- Whether a dict has a non-string key.  Passing such a dict through
`**data` keyword expansion (h5obj_old.py line 118) raises
`TypeError: keywords must be strings` before the function body runs. -/
def hasNonStrKey (kvs : List (PyKey × PyVal)) : Bool :=
  kvs.any (fun kv => !(isStrKey kv.1))

mutual

/-- Embedding of `obj2hdf` (h5obj_old.py lines 46-175) for a single
`name=data` pair: the value is classified by its type and lowered to a
dataset or to a group of recursively encoded children; every created
node receives the `mkAttrs` metadata.  The branches appear in source
order.  Notes on individual branches:

* list/tuple: empty → sentinel dataset; the `seqNativeTest` guard
  routes all-scalar homogeneous sequences to `create_dataset`, whose
  `TypeError` (e.g. on a list of `None` values) is caught and falls
  back to the ordinal-key group encoding (lines 88-96);
* set/frozenset: the group path's key comprehension (line 113) applies
  `%` to the already-formatted key string a second time
  (`'key%0*.*i' % ((digits,)*2+(k,)) % k`), which raises `TypeError:
  not all arguments converted during string formatting` on the first
  element, so every non-empty set routed to the group path fails; the
  dataset path (line 108) has no try/except, so an unstorable element
  list propagates h5py's TypeError;
* dict: `obj2hdf(new, **data)` requires all keys to be strings;
* sparse matrices: converted to CSR (the `pysparse` fields are already
  the CSR decomposition) and stored as a group of `data`, `indices`,
  `indptr`, `shape` plus the pickled matrix class under `dtype`, with
  `__DTYPE__` recording the original subformat's class name;
* anything else is serialized with `dumps` and `__PICKLED__` is true. -/
def obj2hdf (env : PickleEnv) : PyVal → Except PyErr HNode
| .pynone => .ok (.dset (mkAttrs env "NoneType" false) (.pstr "__NONE__"))
| .pybool b => .ok (.dset (mkAttrs env "bool" false) (.pbool b))
| .pyint n => .ok (.dset (mkAttrs env "int" false) (.pint n))
| .pylong n => .ok (.dset (mkAttrs env "long" false) (.pint n))
| .pyfloat t => .ok (.dset (mkAttrs env "float" false) (.pfloat t))
| .pycomplex t => .ok (.dset (mkAttrs env "complex" false) (.pcomplex t))
| .pystr s => .ok (.dset (mkAttrs env "str" false) (.pstr s))
| .pylist xs =>
  if xs.length = 0 then .ok (.dset (mkAttrs env "list" false) (.pstr "__EMPTY__"))
  else do
    let t ← seqNativeTest xs
    if t then
      match mkNativeArray xs with
      | some p => .ok (.dset (mkAttrs env "list" false) p)
      | Option.none => do
          let ns ← encodeElems env xs
          .ok (.group (mkAttrs env "list" false) ((seqKeys xs.length).zip ns))
    else do
      let ns ← encodeElems env xs
      .ok (.group (mkAttrs env "list" false) ((seqKeys xs.length).zip ns))
| .pytuple xs =>
  if xs.length = 0 then .ok (.dset (mkAttrs env "tuple" false) (.pstr "__EMPTY__"))
  else do
    let t ← seqNativeTest xs
    if t then
      match mkNativeArray xs with
      | some p => .ok (.dset (mkAttrs env "tuple" false) p)
      | Option.none => do
          let ns ← encodeElems env xs
          .ok (.group (mkAttrs env "tuple" false) ((seqKeys xs.length).zip ns))
    else do
      let ns ← encodeElems env xs
      .ok (.group (mkAttrs env "tuple" false) ((seqKeys xs.length).zip ns))
| .pyset xs =>
  if xs.length = 0 then .ok (.dset (mkAttrs env "set" false) (.pstr "__EMPTY__"))
  else do
    let t ← setNativeTest xs
    if t then
      match mkNativeArray xs with
      | some p => .ok (.dset (mkAttrs env "set" false) p)
      | Option.none => .error (.typeError "cannot create dataset from data")
    else .error (.typeError "not all arguments converted during string formatting")
| .pyfrozenset xs =>
  if xs.length = 0 then .ok (.dset (mkAttrs env "frozenset" false) (.pstr "__EMPTY__"))
  else do
    let t ← setNativeTest xs
    if t then
      match mkNativeArray xs with
      | some p => .ok (.dset (mkAttrs env "frozenset" false) p)
      | Option.none => .error (.typeError "cannot create dataset from data")
    else .error (.typeError "not all arguments converted during string formatting")
| .pydict kvs =>
  if hasNonStrKey kvs then .error (.typeError "keywords must be strings")
  else do
    let ns ← encodeKVsPy env kvs
    .ok (.group (mkAttrs env "dict" false) ns)
| .pyndarray xs =>
  if xs.length = 0 then .ok (.dset (mkAttrs env "ndarray" false) (.pstr "__EMPTY__"))
  else .ok (.dset (mkAttrs env "ndarray" false) (.parr xs))
| .pymatrix xs =>
  if xs.length = 0 then .ok (.dset (mkAttrs env "matrix" false) (.pstr "__EMPTY__"))
  else .ok (.dset (mkAttrs env "matrix" false) (.pmat xs))
| .pysparse fmt sd si sp ss => do
    let d ← obj2hdf env sd
    let i ← obj2hdf env si
    let p ← obj2hdf env sp
    let s ← obj2hdf env ss
    -- the child `dtype=dtype` holds the sparse-matrix class object,
    -- which falls through to the serialization branch of the recursive
    -- call (its type is `type`); it is inlined here
    .ok (.group (mkAttrs env (sparseName fmt) false)
      [("data", d),
       ("dtype", .dset (mkAttrs env "type" true)
                       (.pstr (env.dumps (.pyclassobj (sparseName fmt))))),
       ("indices", i), ("indptr", p), ("shape", s)])
| .pybundle kvs => do
    let ns ← encodeStrKVs env kvs
    .ok (.group (mkAttrs env "Bundle" false) ns)
| .pycofunc x y a => do
    let nx ← obj2hdf env x
    let ny ← obj2hdf env y
    let na ← obj2hdf env a
    .ok (.group (mkAttrs env "coFunc" false) [("attrs", na), ("x", nx), ("y", ny)])
| .pycofunc2d x y z a => do
    let nx ← obj2hdf env x
    let ny ← obj2hdf env y
    let nz ← obj2hdf env z
    let na ← obj2hdf env a
    .ok (.group (mkAttrs env "coFunc2d" false)
      [("attrs", na), ("x", nx), ("y", ny), ("z", nz)])
| .pyclassobj cls =>
    .ok (.dset (mkAttrs env "type" true) (.pstr (env.dumps (.pyclassobj cls))))
| .pyinst cls it hd t =>
    .ok (.dset (mkAttrs env cls true) (.pstr (env.dumps (.pyinst cls it hd t))))

/-- Recursive encoding of the elements of a sequence (the nested
`obj2hdf(new, **dict(zip(keys, data)))` call), in element order. -/
def encodeElems (env : PickleEnv) : List PyVal → Except PyErr (List HNode)
| [] => .ok []
| x :: xs => do
    let n ← obj2hdf env x
    let ns ← encodeElems env xs
    .ok (n :: ns)

/-- Recursive encoding of the entries of a dict passed through
`obj2hdf(new, **data)`: the keys become keyword names (strings). -/
def encodeKVsPy (env : PickleEnv) : List (PyKey × PyVal) → Except PyErr (List (String × HNode))
| [] => .ok []
| (.kstr s, v) :: rest => do
    let n ← obj2hdf env v
    let ns ← encodeKVsPy env rest
    .ok ((s, n) :: ns)
| (.kint _, _) :: _ => .error (.typeError "keywords must be strings")

/-- Recursive encoding of a string-keyed mapping (`Bundle`). -/
def encodeStrKVs (env : PickleEnv) : List (String × PyVal) → Except PyErr (List (String × HNode))
| [] => .ok []
| (s, v) :: rest => do
    let n ← obj2hdf env v
    let ns ← encodeStrKVs env rest
    .ok ((s, n) :: ns)

end

/-- The decoder branch selected by `hdf2obj`'s `if`/`elif` chain
(h5obj_old.py lines 219-352).  The chain tests `__PICKLED__` first and
then compares the `__DTYPE__` string against the recognized type
names; it reads nothing but these two attributes. -/
inductive DecodeKind where
| pickledK | noneK | boolK | intK | longK | floatK | complexK | strK
| listK | tupleK | setK | frozensetK | bundleK | dictK | ndarrayK | matrixK
| sparseK (fmt : SparseFmt)
| cofuncK | cofunc2dK | fallbackK
deriving DecidableEq, Repr

/-- Maps a node's attributes to the decoder branch, mirroring the
source's `elif` chain in order.  `struct` and `Bundle` share a branch
(line 292); the seven sparse class names share one branch (lines
321-322). -/
def dispatchOf (a : HAttrs) : DecodeKind :=
  if a.pickled then .pickledK else
  match a.dty with
  | some "NoneType" => .noneK
  | some "bool" => .boolK
  | some "int" => .intK
  | some "long" => .longK
  | some "float" => .floatK
  | some "complex" => .complexK
  | some "str" => .strK
  | some "list" => .listK
  | some "tuple" => .tupleK
  | some "set" => .setK
  | some "frozenset" => .frozensetK
  | some "struct" => .bundleK
  | some "Bundle" => .bundleK
  | some "dict" => .dictK
  | some "ndarray" => .ndarrayK
  | some "matrix" => .matrixK
  | some "csc_matrix" => .sparseK .csc
  | some "csr_matrix" => .sparseK .csr
  | some "bsr_matrix" => .sparseK .bsr
  | some "lil_matrix" => .sparseK .lil
  | some "dok_matrix" => .sparseK .dok
  | some "coo_matrix" => .sparseK .coo
  | some "dia_matrix" => .sparseK .dia
  | some "coFunc" => .cofuncK
  | some "coFunc2d" => .cofunc2dK
  | _ => .fallbackK

/-- The branch the decoder takes for a node: a function of the node's
attributes alone. -/
def hdf2objDispatch (nd : HNode) : DecodeKind := dispatchOf (attrsOf nd)

/-- The `int(obj.value)` cast of the `int` branch (line 232). -/
def castInt : HPayload → Except PyErr PyVal
| .pint n => .ok (.pyint n)
| .pbool b => .ok (.pyint (if b then 1 else 0))
| _ => .error (.typeError "int() cast of this payload is not modelled")

/-- The `long(obj.value)` cast (line 234). -/
def castLong : HPayload → Except PyErr PyVal
| .pint n => .ok (.pylong n)
| .pbool b => .ok (.pylong (if b then 1 else 0))
| _ => .error (.typeError "long() cast of this payload is not modelled")

/-- The `float(obj.value)` cast (line 236); the float token of an int
is the int itself. -/
def castFloat : HPayload → Except PyErr PyVal
| .pfloat t => .ok (.pyfloat t)
| .pint n => .ok (.pyfloat n)
| .pbool b => .ok (.pyfloat (if b then 1 else 0))
| _ => .error (.typeError "float() cast of this payload is not modelled")

/-- The `complex(obj.value)` cast (line 238). -/
def castComplex : HPayload → Except PyErr PyVal
| .pcomplex t => .ok (.pycomplex t)
| .pfloat t => .ok (.pycomplex t)
| .pint n => .ok (.pycomplex n)
| .pbool b => .ok (.pycomplex (if b then 1 else 0))
| _ => .error (.typeError "complex() cast of this payload is not modelled")

/-- The `str(obj.value)` cast (line 240). -/
def castStr : HPayload → Except PyErr PyVal
| .pstr s => .ok (.pystr s)
| _ => .error (.typeError "str() cast of this payload is not modelled")

/-- Models `list(obj.value)` on a dataset payload: a native 1-D array
yields its elements, a string yields its one-character substrings
(Python `list("ab") == ["a", "b"]`), scalars are not iterable. -/
def seqElems : HPayload → Except PyErr (List PyVal)
| .pstr s => .ok (s.data.map (fun c => PyVal.pystr (String.mk [c])))
| .parr xs => .ok xs
| .pmat _ => .error (.typeError "iteration over a 2-D array is not modelled")
| _ => .error (.typeError "object is not iterable")

/-- Name lookup in an association list (`f[name]`). -/
def lookupChild {α : Type} (key : String) : List (String × α) → Option α
| [] => Option.none
| (k, nd) :: rest => if k = key then some nd else lookupChild key rest

/-- Name lookup among decoded (name, value) pairs, used for the
by-name recursive reads of the sparse and coFunc branches
(`hdf2obj(obj, "shape")` and friends); an absent name is the KeyError
of line 204. -/
def childVal (ps : List (String × PyVal)) (key : String) : Except PyErr PyVal :=
  match ps.find? (fun p => p.1 == key) with
  | some p => .ok p.2
  | Option.none =>
      .error (.keyError ("dataset or group \"" ++ key ++ "\" not found in HDF5 file object"))

/-- Failure outcome of `cPickle.loads` in the `__PICKLED__` branch:
the surrounding `except ValueError:` (line 223) catches and renames
only `ValueError` failures to the message naming the dataset and the
file; failures of every other exception class (`UnpicklingError`,
`EOFError`, `ImportError`, ...) propagate unchanged. -/
def pickleFailure (env : PickleEnv) (fn nm s : String) : Except PyErr PyVal :=
  match env.loadErr s with
  | .valueError _ =>
      .error (.valueError
        ("cannot unpickle data \"" ++ nm ++ "\" from file \"" ++ fn ++ "\""))
  | e => .error e

/-- The `__PICKLED__` branch of `hdf2obj` on a dataset payload (lines
219-226): `cPickle.loads(obj.value)` inside a try whose
`except ValueError:` renames only that class (`pickleFailure`). -/
def decPickled (env : PickleEnv) (fn nm : String) (p : HPayload) : Except PyErr PyVal :=
  match p with
  | .pstr s =>
      match env.loads s with
      | some v => .ok v
      | Option.none => pickleFailure env fn nm s
  | _ => .error (.typeError "pickle argument must be a string")

/-- The dataset sub-cases of the list/tuple/set/frozenset branches:
the `'__EMPTY__'` sentinel produces the empty container, any other
payload is iterated into the container. -/
def decEmptyOr (wrap : List PyVal → PyVal) (p : HPayload) : Except PyErr PyVal :=
  match p with
  | .pstr "__EMPTY__" => .ok (wrap [])
  | _ => do
      let xs ← seqElems p
      .ok (wrap xs)

/-- The dataset sub-case of the dict branch (line 302):
`cPickle.loads(obj.value)` with no surrounding try. -/
def decDictDset (env : PickleEnv) (p : HPayload) : Except PyErr PyVal :=
  match p with
  | .pstr s =>
      match env.loads s with
      | some v => .ok v
      | Option.none => .error (env.loadErr s)
  | _ => .error (.typeError "pickle argument must be a string")

/-- The dataset sub-cases of the ndarray/matrix branches: the
`'__EMPTY__'` sentinel produces the empty array, an array payload is
rewrapped. -/
def decArrDset (wrap : List PyVal → PyVal) (castMsg : String) (p : HPayload) : Except PyErr PyVal :=
  match p with
  | .pstr "__EMPTY__" => .ok (wrap [])
  | .parr xs => .ok (wrap xs)
  | .pmat xs => .ok (wrap xs)
  | _ => .error (.typeError castMsg)

/-- The decoder's behaviour on a dataset node (h5obj_old.py lines
219-352, dataset sub-cases): no branch recurses on a dataset.  The
branch is selected by `dispatchOf`, i.e. by `__PICKLED__` and string
comparison on `__DTYPE__` only; within a branch the payload is then
tested against the `'__EMPTY__'` sentinel or cast. -/
def decodeDset (env : PickleEnv) (fn nm : String) (a : HAttrs) (p : HPayload) : Except PyErr PyVal :=
  match dispatchOf a with
  | .pickledK => decPickled env fn nm p
  | .noneK => .ok .pynone
  | .boolK => .ok (payloadVal p)
  | .intK => castInt p
  | .longK => castLong p
  | .floatK => castFloat p
  | .complexK => castComplex p
  | .strK => castStr p
  | .listK => decEmptyOr .pylist p
  | .tupleK => decEmptyOr .pytuple p
  | .setK => decEmptyOr .pyset p
  | .frozensetK => decEmptyOr .pyfrozenset p
  | .bundleK => .error (.attributeError "Dataset object has no attribute iterkeys")
  | .dictK => decDictDset env p
  | .ndarrayK => decArrDset .pyndarray "scipy.array() of this payload is not modelled" p
  | .matrixK => decArrDset .pymatrix "scipy.matrix() of this payload is not modelled" p
  | .sparseK _ => .error (.typeError "sparse reconstruction requires a group")
  | .cofuncK => .error (.typeError "coFunc reconstruction requires a group")
  | .cofunc2dK => .error (.typeError "coFunc2d reconstruction requires a group")
  | .fallbackK =>
      -- unrecognized `__DTYPE__` on a dataset: return the payload unchanged
      .ok (payloadVal p)

mutual

/-- Embedding of `hdf2obj` (h5obj_old.py lines 192-361) applied to the
node stored under name `nm` of a file named `fn`.  The branch is
selected by `dispatchOf`, i.e. by `__PICKLED__` and string comparison
on `__DTYPE__` only; the source additionally distinguishes groups from
datasets inside each branch (`type(obj).__name__ == 'Group'`); dataset
sub-cases are in `decodeDset`.  For group-encoded lists and tuples the
child names are sorted (`keys.sort()`, lines 243-244 and 255-256)
before the children are decoded; the model decodes the children in
stored order and sorts the (name, value) pairs, which agrees because
each child decodes independently.  Sets, frozensets, `Bundle`s and
dicts iterate children unsorted.  The sparse and coFunc branches read
specific children by name; the model decodes all children first and
selects by name, which only adds the decoding of the serialized
`dtype` child the source leaves untouched.  A group reaching a branch
that accesses `obj.value` raises AttributeError. -/
def hdf2objNode (env : PickleEnv) (fn nm : String) : HNode → Except PyErr PyVal
| .dset a p => decodeDset env fn nm a p
| .group a ch =>
  match dispatchOf a with
  | .noneK => .ok .pynone
  | .listK => do
      let ps ← decodeChildren env fn ch
      .ok (.pylist ((sortPairs ps).map Prod.snd))
  | .tupleK => do
      let ps ← decodeChildren env fn ch
      .ok (.pytuple ((sortPairs ps).map Prod.snd))
  | .setK => do
      let ps ← decodeChildren env fn ch
      .ok (.pyset (ps.map Prod.snd))
  | .frozensetK => do
      let ps ← decodeChildren env fn ch
      .ok (.pyfrozenset (ps.map Prod.snd))
  | .bundleK => do
      let ps ← decodeChildren env fn ch
      .ok (.pybundle ps)
  | .dictK => do
      let ps ← decodeChildren env fn ch
      .ok (.pydict (ps.map (fun p => (PyKey.kstr p.1, p.2))))
  | .sparseK fmt => do
      let ps ← decodeChildren env fn ch
      let sh ← childVal ps "shape"
      let d ← childVal ps "data"
      let i ← childVal ps "indices"
      let pp ← childVal ps "indptr"
      -- `csr_matrix((data, indices, indptr), shape=shape).asformat(dtype[:3])`:
      -- the first three characters of each subformat's class name are its
      -- abbreviation, so the original subformat is restored
      .ok (.pysparse fmt d i pp sh)
  | .cofuncK => do
      let ps ← decodeChildren env fn ch
      let x ← childVal ps "x"
      let y ← childVal ps "y"
      let a2 ← childVal ps "attrs"
      .ok (.pycofunc x y a2)
  | .cofunc2dK => do
      let ps ← decodeChildren env fn ch
      let x ← childVal ps "x"
      let y ← childVal ps "y"
      let z ← childVal ps "z"
      let a2 ← childVal ps "attrs"
      .ok (.pycofunc2d x y z a2)
  | .fallbackK => do
      -- unrecognized `__DTYPE__` on a group: contents as a `Bundle`
      -- (lines 344-352)
      let ps ← decodeChildren env fn ch
      .ok (.pybundle ps)
  | _ => .error (.attributeError "Group object has no attribute value")

/-- Decodes every child of a group, keeping the stored order and the
child names; each child is decoded by a recursive `hdf2obj(obj, key)`
call. -/
def decodeChildren (env : PickleEnv) (fn : String) : List (String × HNode) → Except PyErr (List (String × PyVal))
| [] => .ok []
| (k, nd) :: rest => do
    let v ← hdf2objNode env fn k nd
    let vs ← decodeChildren env fn rest
    .ok ((k, v) :: vs)

end

/-- Entry point `hdf2obj(f, name)` for a single name: looks the name up
in the group `f` (raising the KeyError of lines 204-206 when absent)
and decodes the node found. -/
def hdf2obj (env : PickleEnv) (fn : String) (f : HNode) (name : String) : Except PyErr PyVal :=
  match f with
  | .group _ ch =>
      match lookupChild name ch with
      | some nd => hdf2objNode env fn name nd
      | Option.none =>
          .error (.keyError
            ("dataset or group \"" ++ name ++ "\" not found in HDF5 file object"))
  | .dset _ _ => .error (.typeError "membership test requires a group")

/-! ### The simplified wrapper line (src/__init__.py) -/

/-- What `Group.__getitem__` of the simplified wrapper returns: a
wrapped sub-`Group`, a plain value, or (when `return_value` is off)
the raw dataset. -/
inductive GetResult where
| wrapGroup (ch : List (String × HNode))
| value (v : PyVal)
| rawDset (a : HAttrs) (p : HPayload)

/-- Embedding of the wrapper `Group.__getitem__` (src/__init__.py
lines 80-96) on a group with children `ch`: a missing key raises
h5py's KeyError; a group child is wrapped; for a dataset child with
`return_value` set, a string payload is opportunistically deserialized
when `unpickle` is set — the bare `except` falls back to returning the
raw string — and any other payload is returned as `dset.value`. -/
def wrapperGetItem (env : PickleEnv) (unpick retval : Bool)
    (ch : List (String × HNode)) (key : String) : Except PyErr GetResult :=
  match lookupChild key ch with
  | Option.none => .error (.keyError key)
  | some (.group _ gch) => .ok (.wrapGroup gch)
  | some (.dset a p) =>
      if retval then
        match p with
        | .pstr s =>
            if unpick then
              match env.loads s with
              | some v => .ok (.value v)
              | Option.none => .ok (.value (.pystr s))
            else .ok (.value (.pystr s))
        | _ => .ok (.value (payloadVal p))
      else .ok (.rawDset a p)

/-- Models the wrapper's `create_dataset(key, data=obj)` conversion:
scalars, strings and homogeneous scalar sequences convert to a native
payload, anything else raises (`Option.none`). -/
def mkDsetData : PyVal → Option HPayload
| .pybool b => some (.pbool b)
| .pyint n => some (.pint n)
| .pylong n => some (.pint n)
| .pyfloat t => some (.pfloat t)
| .pycomplex t => some (.pcomplex t)
| .pystr s => some (.pstr s)
| .pylist xs => mkNativeArray xs
| .pytuple xs => mkNativeArray xs
| .pyndarray xs => some (.parr xs)
| .pymatrix xs => some (.pmat xs)
| _ => Option.none

/-- Datasets created by the simplified wrapper carry none of the
`obj2hdf` metadata attributes. -/
def noAttrs : HAttrs := ⟨Option.none, Option.none, Option.none, false⟩

/-- Removal of a named entry from an association list (`del f[name]`). -/
def removeChild {α : Type} (key : String) : List (String × α) → List (String × α)
| [] => []
| (k, n) :: rest => if k = key then removeChild key rest else (k, n) :: removeChild key rest

/-- Replaces or appends a named entry in an association list. -/
def setAssoc {α : Type} (key : String) (v : α) : List (String × α) → List (String × α)
| [] => [(key, v)]
| (k, n) :: rest => if k = key then (key, v) :: rest else (k, n) :: setAssoc key v rest

/-- Embedding of the wrapper `Group.__setitem__` (src/__init__.py
lines 102-113): try `create_dataset(key, data=obj)`; on
ValueError/TypeError serialize instead (when `pickle` is set,
otherwise re-raise); on success, if the value read back would not have
the type that was stored, delete the dataset and store the serialized
form (line 111).  `create_dataset` on an existing name raises, and the
retry inside the except block hits the same error. -/
def wrapperSetItem (env : PickleEnv) (pickleFlag : Bool)
    (ch : List (String × HNode)) (key : String) (v : PyVal) :
    Except PyErr (List (String × HNode)) :=
  if (lookupChild key ch).isSome then
    .error (.valueError "unable to create dataset (name already exists)")
  else
    match mkDsetData v with
    | some p =>
        if typeName (payloadVal p) != typeName v && pickleFlag then
          .ok (ch ++ [(key, .dset noAttrs (.pstr (env.dumps v)))])
        else .ok (ch ++ [(key, .dset noAttrs p)])
    | Option.none =>
        if pickleFlag then .ok (ch ++ [(key, .dset noAttrs (.pstr (env.dumps v)))])
        else .error (.typeError "unable to create dataset from data")

/-! ### The CLI helpers (src/tools.py) -/

/-- A filesystem of HDF5 files: each file is its root group's children.
Dataset paths are modelled as flat names. -/
abbrev FileSys : Type := List (String × List (String × HNode))

/-- Outcome of a CLI verb: a user-facing failure (message printed to
the error stream, exit status 1), success, or a propagated Python
exception; each carries the resulting filesystem. -/
inductive SaveOutcome where
| exitFail (stderrLine : String) (fs : FileSys)
| saved (fs : FileSys)
| raised (e : PyErr) (fs : FileSys)

/-- Embedding of `h5save` (src/tools.py lines 115-136) after the
combined path `fdpath` has been split into `filename`/`dsetname`
(lines 118-120, resolved upstream by `h5split`): empty parts fail;
then the file, if it exists on disk, is opened read-only to test
whether the dataset exists; an existing dataset without `force` fails
with a message naming the combined path and the store untouched —
the file is never opened for writing on that path; otherwise the file
is opened in append mode (created when absent), an existing dataset is
deleted, and the wrapper `__setitem__` stores the data. -/
def h5save (env : PickleEnv) (fdpath filename dsetname : String) (d : PyVal)
    (force pickleFlag : Bool) (fs : FileSys) : SaveOutcome :=
  if filename = "" || dsetname = "" then
    .exitFail "h5save: no dataset name specified" fs
  else
    let found := match lookupChild filename fs with
      | some f => (lookupChild dsetname f).isSome
      | Option.none => false
    if found && !force then
      .exitFail ("h5save: cannot save \"" ++ fdpath ++ "\": dataset exists") fs
    else
      let f0 := (lookupChild filename fs).getD []
      let f1 := if found then removeChild dsetname f0 else f0
      match wrapperSetItem env pickleFlag f1 dsetname d with
      | .ok f2 => .saved (setAssoc filename f2 fs)
      | .error e => .raised e (setAssoc filename f1 fs)

/-- Embedding of `string.split(char)` (every occurrence of `char`
separates two parts; no occurrence yields the single-element list
holding the whole string). -/
def pySplit (c : Char) : List Char → List (List Char)
| [] => [[]]
| x :: xs =>
  match pySplit c xs with
  | [] => [[]]
  | p :: ps => if x = c then [] :: p :: ps else (x :: p) :: ps

/-- Embedding of `char.join(parts)`. -/
def pyJoin (c : Char) : List (List Char) → List Char
| [] => []
| [p] => p
| p :: q :: ps => p ++ c :: pyJoin c (q :: ps)

/-- Python slice `l[:n]`, where a negative `n` counts from the back
and clamps at zero. -/
def pySliceTo {α : Type} (l : List α) (n : Int) : List α :=
  if 0 ≤ n then l.take n.toNat else l.take (l.length - (-n).toNat)

/-- Python slice `l[n:]`. -/
def pySliceFrom {α : Type} (l : List α) (n : Int) : List α :=
  if 0 ≤ n then l.drop n.toNat else l.drop (l.length - (-n).toNat)

/-- Embedding of `divide` (src/tools.py lines 469-481): split the
string at every `char`, then rejoin `parts[:n]` and `parts[n:]`. -/
def divide (s : List Char) (c : Char) (n : Int) : List Char × List Char :=
  let parts := pySplit c s
  (pyJoin c (pySliceTo parts n), pyJoin c (pySliceFrom parts n))

/-! ### Auxiliary definitions used only by the proofs -/

/-- The `w` low-order decimal digits of `k`, big-endian: the digit
at position `i` (from the left) is `(k / 10 ^ (w - 1 - i)) % 10`.
For `k < 10 ^ w` this is the zero-padded width-`w` decimal form. -/
def decDigits : Nat → Nat → List Nat
| 0, _ => []
| w + 1, k => (k / 10 ^ w) % 10 :: decDigits w k

/-- Erases the `__NTYPE__` attribute. -/
def scrubAttrs (a : HAttrs) : HAttrs := ⟨a.dty, Option.none, a.date, a.pickled⟩

mutual

/-- Erases the `__NTYPE__` attribute from every node of a tree: used
to show the decoder never consults it. -/
def scrubNty : HNode → HNode
| .dset a p => .dset (scrubAttrs a) p
| .group a ch => .group (scrubAttrs a) (scrubChildren ch)

/-- Erases `__NTYPE__` from a child list. -/
def scrubChildren : List (String × HNode) → List (String × HNode)
| [] => []
| (k, nd) :: rest => (k, scrubNty nd) :: scrubChildren rest

end

mutual

/-- Whether every node of a tree satisfies a Boolean attribute
predicate. -/
def allNodesP (p : HAttrs → Bool) : HNode → Bool
| .dset a _ => p a
| .group a ch => p a && allChildrenP p ch

/-- Whether every node of a child list satisfies the predicate. -/
def allChildrenP (p : HAttrs → Bool) : List (String × HNode) → Bool
| [] => true
| (_, nd) :: rest => allNodesP p nd && allChildrenP p rest

end

/-- The metadata invariant checked on every encoder-created node: the
four attributes are present (`__NTYPE__` is `"str"`, names being
keyword strings), and the node is either serialized or carries a
`__DTYPE__` the decoder's dispatch recognizes. -/
def nodeMetaOk (a : HAttrs) : Bool :=
  a.dty.isSome && (a.nty == some "str") && a.date.isSome &&
  (a.pickled || (dispatchOf a != DecodeKind.fallbackK))

/-- A concrete external environment for witnesses: serialization is a
constant and deserialization always fails, raising a `ValueError`. -/
def envA : PickleEnv :=
  ⟨fun _ => "SERIAL", fun _ => Option.none,
   fun _ => .valueError "insecure string pickle", "Thu Mar 14 12:00:00 2013"⟩

/-- A concrete external environment whose deserialization always fails
with `cPickle.UnpicklingError`, as `cPickle.loads("junk")` does. -/
def envU : PickleEnv :=
  ⟨fun _ => "SERIAL", fun _ => Option.none,
   fun _ => .unpicklingError "invalid load key", "Thu Mar 14 12:00:00 2013"⟩

/-! ## Theorems -/

theorem bindOk {ε α β : Type} (a : α) (f : α → Except ε β) :
    (Except.ok (ε := ε) a >>= f) = f a := rfl

theorem allChildrenP_zip (p : HAttrs → Bool) (ks : List String) (ns : List HNode)
    (h : ∀ n ∈ ns, allNodesP p n = true) : allChildrenP p (ks.zip ns) = true := by
  induction ks generalizing ns with
  | nil => rfl
  | cons k ks ih =>
      cases ns with
      | nil => rfl
      | cons n ns2 =>
          simp only [List.zip_cons_cons, allChildrenP,
            h n (List.mem_cons_self n ns2), Bool.true_and]
          exact ih ns2 (fun m hm => h m (List.mem_cons_of_mem n hm))

theorem nodeMetaOk_sparseName (env : PickleEnv) (fmt : SparseFmt) :
    nodeMetaOk (mkAttrs env (sparseName fmt) false) = true := by
  cases fmt <;> rfl

theorem encode_meta (env : PickleEnv) (v : PyVal) :
    ∀ nd, obj2hdf env v = .ok nd → allNodesP nodeMetaOk nd = true := by
  refine obj2hdf.induct env
    (fun v => ∀ nd, obj2hdf env v = .ok nd → allNodesP nodeMetaOk nd = true)
    (fun kvs => ∀ ns, encodeStrKVs env kvs = .ok ns → allChildrenP nodeMetaOk ns = true)
    (fun kvs => ∀ ns, encodeKVsPy env kvs = .ok ns → allChildrenP nodeMetaOk ns = true)
    (fun xs => ∀ ns, encodeElems env xs = .ok ns → ∀ n ∈ ns, allNodesP nodeMetaOk n = true)
    ?_ ?_ ?_ ?_ ?_ ?_ ?_ ?_ ?_ ?_ ?_ ?_ ?_ ?_ ?_ ?_ ?_ ?_ ?_ ?_ ?_ ?_ ?_ ?_ ?_ ?_
    ?_ ?_ ?_ ?_ ?_ ?_ ?_ ?_ v
  -- pynone
  · intro nd h; injection h with h2; subst h2; rfl
  -- pybool
  · intro b nd h; injection h with h2; subst h2; rfl
  -- pyint
  · intro n nd h; injection h with h2; subst h2; rfl
  -- pylong
  · intro n nd h; injection h with h2; subst h2; rfl
  -- pyfloat
  · intro t nd h; injection h with h2; subst h2; rfl
  -- pycomplex
  · intro t nd h; injection h with h2; subst h2; rfl
  -- pystr
  · intro s nd h; injection h with h2; subst h2; rfl
  -- pylist empty
  · intro xs hlen nd h
    simp only [obj2hdf] at h
    rw [if_pos hlen] at h
    injection h with h2; subst h2; rfl
  -- pylist nonempty
  · intro xs hlen ih nd h
    simp only [obj2hdf] at h
    rw [if_neg hlen] at h
    cases hst : seqNativeTest xs with
    | error e => rw [hst] at h; exact Except.noConfusion h
    | ok t =>
        rw [hst] at h
        rw [bindOk] at h
        cases t with
        | true =>
            rw [if_pos rfl] at h
            cases hna : mkNativeArray xs with
            | some p =>
                rw [hna] at h
                injection h with h2; subst h2; rfl
            | none =>
                rw [hna] at h
                cases hee : encodeElems env xs with
                | error e => rw [hee] at h; exact Except.noConfusion h
                | ok ns =>
                    rw [hee] at h
                    rw [bindOk] at h
                    injection h with h2; subst h2
                    simp only [allNodesP]
                    rw [allChildrenP_zip nodeMetaOk _ ns (ih ns hee)]
                    rfl
        | false =>
            rw [if_neg Bool.false_ne_true] at h
            cases hee : encodeElems env xs with
            | error e => rw [hee] at h; exact Except.noConfusion h
            | ok ns =>
                rw [hee] at h
                rw [bindOk] at h
                injection h with h2; subst h2
                simp only [allNodesP]
                rw [allChildrenP_zip nodeMetaOk _ ns (ih ns hee)]
                rfl
  -- pytuple empty
  · intro xs hlen nd h
    simp only [obj2hdf] at h
    rw [if_pos hlen] at h
    injection h with h2; subst h2; rfl
  -- pytuple nonempty
  · intro xs hlen ih nd h
    simp only [obj2hdf] at h
    rw [if_neg hlen] at h
    cases hst : seqNativeTest xs with
    | error e => rw [hst] at h; exact Except.noConfusion h
    | ok t =>
        rw [hst] at h
        rw [bindOk] at h
        cases t with
        | true =>
            rw [if_pos rfl] at h
            cases hna : mkNativeArray xs with
            | some p =>
                rw [hna] at h
                injection h with h2; subst h2; rfl
            | none =>
                rw [hna] at h
                cases hee : encodeElems env xs with
                | error e => rw [hee] at h; exact Except.noConfusion h
                | ok ns =>
                    rw [hee] at h
                    rw [bindOk] at h
                    injection h with h2; subst h2
                    simp only [allNodesP]
                    rw [allChildrenP_zip nodeMetaOk _ ns (ih ns hee)]
                    rfl
        | false =>
            rw [if_neg Bool.false_ne_true] at h
            cases hee : encodeElems env xs with
            | error e => rw [hee] at h; exact Except.noConfusion h
            | ok ns =>
                rw [hee] at h
                rw [bindOk] at h
                injection h with h2; subst h2
                simp only [allNodesP]
                rw [allChildrenP_zip nodeMetaOk _ ns (ih ns hee)]
                rfl
  -- pyset empty
  · intro xs hlen nd h
    simp only [obj2hdf] at h
    rw [if_pos hlen] at h
    injection h with h2; subst h2; rfl
  -- pyset nonempty
  · intro xs hlen nd h
    simp only [obj2hdf] at h
    rw [if_neg hlen] at h
    cases hst : setNativeTest xs with
    | error e => rw [hst] at h; exact Except.noConfusion h
    | ok t =>
        rw [hst] at h
        rw [bindOk] at h
        cases t with
        | true =>
            rw [if_pos rfl] at h
            cases hna : mkNativeArray xs with
            | some p => rw [hna] at h; injection h with h2; subst h2; rfl
            | none => rw [hna] at h; exact Except.noConfusion h
        | false =>
            rw [if_neg Bool.false_ne_true] at h
            exact Except.noConfusion h
  -- pyfrozenset empty
  · intro xs hlen nd h
    simp only [obj2hdf] at h
    rw [if_pos hlen] at h
    injection h with h2; subst h2; rfl
  -- pyfrozenset nonempty
  · intro xs hlen nd h
    simp only [obj2hdf] at h
    rw [if_neg hlen] at h
    cases hst : setNativeTest xs with
    | error e => rw [hst] at h; exact Except.noConfusion h
    | ok t =>
        rw [hst] at h
        rw [bindOk] at h
        cases t with
        | true =>
            rw [if_pos rfl] at h
            cases hna : mkNativeArray xs with
            | some p => rw [hna] at h; injection h with h2; subst h2; rfl
            | none => rw [hna] at h; exact Except.noConfusion h
        | false =>
            rw [if_neg Bool.false_ne_true] at h
            exact Except.noConfusion h
  -- pydict with a non-string key
  · intro kvs hk nd h
    simp only [obj2hdf] at h
    rw [if_pos hk] at h
    exact Except.noConfusion h
  -- pydict with string keys
  · intro kvs hk ih nd h
    simp only [obj2hdf] at h
    rw [if_neg hk] at h
    cases he : encodeKVsPy env kvs with
    | error e => rw [he] at h; exact Except.noConfusion h
    | ok ns =>
        rw [he] at h
        rw [bindOk] at h
        injection h with h2; subst h2
        simp only [allNodesP]
        rw [ih ns he]
        rfl
  -- pyndarray empty
  · intro xs hlen nd h
    simp only [obj2hdf] at h
    rw [if_pos hlen] at h
    injection h with h2; subst h2; rfl
  -- pyndarray nonempty
  · intro xs hlen nd h
    simp only [obj2hdf] at h
    rw [if_neg hlen] at h
    injection h with h2; subst h2; rfl
  -- pymatrix empty
  · intro xs hlen nd h
    simp only [obj2hdf] at h
    rw [if_pos hlen] at h
    injection h with h2; subst h2; rfl
  -- pymatrix nonempty
  · intro xs hlen nd h
    simp only [obj2hdf] at h
    rw [if_neg hlen] at h
    injection h with h2; subst h2; rfl
  -- pysparse
  · intro fmt sd si sp ss ihd ihi ihp ihs nd h
    simp only [obj2hdf] at h
    cases hd : obj2hdf env sd with
    | error e => rw [hd] at h; exact Except.noConfusion h
    | ok d =>
        rw [hd] at h
        rw [bindOk] at h
        cases hi : obj2hdf env si with
        | error e => rw [hi] at h; exact Except.noConfusion h
        | ok i =>
            rw [hi] at h
            rw [bindOk] at h
            cases hp2 : obj2hdf env sp with
            | error e => rw [hp2] at h; exact Except.noConfusion h
            | ok p =>
                rw [hp2] at h
                rw [bindOk] at h
                cases hs : obj2hdf env ss with
                | error e => rw [hs] at h; exact Except.noConfusion h
                | ok s =>
                    rw [hs] at h
                    rw [bindOk] at h
                    injection h with h2; subst h2
                    simp only [allNodesP, allChildrenP]
                    rw [nodeMetaOk_sparseName env fmt,
                      ihd d hd, ihi i hi, ihp p hp2, ihs s hs]
                    rfl
  -- pybundle
  · intro kvs ih nd h
    simp only [obj2hdf] at h
    cases he : encodeStrKVs env kvs with
    | error e => rw [he] at h; exact Except.noConfusion h
    | ok ns =>
        rw [he] at h
        rw [bindOk] at h
        injection h with h2; subst h2
        simp only [allNodesP]
        rw [ih ns he]
        rfl
  -- pycofunc
  · intro x y a ihx ihy iha nd h
    simp only [obj2hdf] at h
    cases hx : obj2hdf env x with
    | error e => rw [hx] at h; exact Except.noConfusion h
    | ok nx =>
        rw [hx] at h
        rw [bindOk] at h
        cases hy : obj2hdf env y with
        | error e => rw [hy] at h; exact Except.noConfusion h
        | ok ny =>
            rw [hy] at h
            rw [bindOk] at h
            cases ha : obj2hdf env a with
            | error e => rw [ha] at h; exact Except.noConfusion h
            | ok na =>
                rw [ha] at h
                rw [bindOk] at h
                injection h with h2; subst h2
                simp only [allNodesP, allChildrenP]
                rw [ihx nx hx, ihy ny hy, iha na ha]
                rfl
  -- pycofunc2d
  · intro x y z a ihx ihy ihz iha nd h
    simp only [obj2hdf] at h
    cases hx : obj2hdf env x with
    | error e => rw [hx] at h; exact Except.noConfusion h
    | ok nx =>
        rw [hx] at h
        rw [bindOk] at h
        cases hy : obj2hdf env y with
        | error e => rw [hy] at h; exact Except.noConfusion h
        | ok ny =>
            rw [hy] at h
            rw [bindOk] at h
            cases hz : obj2hdf env z with
            | error e => rw [hz] at h; exact Except.noConfusion h
            | ok nz =>
                rw [hz] at h
                rw [bindOk] at h
                cases ha : obj2hdf env a with
                | error e => rw [ha] at h; exact Except.noConfusion h
                | ok na =>
                    rw [ha] at h
                    rw [bindOk] at h
                    injection h with h2; subst h2
                    simp only [allNodesP, allChildrenP]
                    rw [ihx nx hx, ihy ny hy, ihz nz hz, iha na ha]
                    rfl
  -- pyclassobj
  · intro cls nd h; injection h with h2; subst h2; rfl
  -- pyinst
  · intro cls it hd t nd h; injection h with h2; subst h2; rfl
  -- encodeElems []
  · intro ns h
    injection h with h2; subst h2
    intro n hn
    simp at hn
  -- encodeElems cons
  · intro x tail ihx ihtail ns h
    simp only [encodeElems] at h
    cases hx : obj2hdf env x with
    | error e => rw [hx] at h; exact Except.noConfusion h
    | ok n =>
        rw [hx] at h
        rw [bindOk] at h
        cases ht : encodeElems env tail with
        | error e => rw [ht] at h; exact Except.noConfusion h
        | ok ns2 =>
            rw [ht] at h
            rw [bindOk] at h
            injection h with h2; subst h2
            intro m hm
            simp only [List.mem_cons] at hm
            rcases hm with hm | hm
            · subst hm; exact ihx _ hx
            · exact ihtail ns2 ht m hm
  -- encodeKVsPy []
  · intro ns h
    injection h with h2; subst h2
    rfl
  -- encodeKVsPy kstr cons
  · intro s v rest ihv ihrest ns h
    simp only [encodeKVsPy] at h
    cases hv : obj2hdf env v with
    | error e => rw [hv] at h; exact Except.noConfusion h
    | ok n =>
        rw [hv] at h
        rw [bindOk] at h
        cases hr : encodeKVsPy env rest with
        | error e => rw [hr] at h; exact Except.noConfusion h
        | ok ns2 =>
            rw [hr] at h
            rw [bindOk] at h
            injection h with h2; subst h2
            simp only [allChildrenP]
            rw [ihv n hv, ihrest ns2 hr]
            rfl
  -- encodeKVsPy kint cons
  · intro n snd tail ns h
    simp only [encodeKVsPy] at h
    exact Except.noConfusion h
  -- encodeStrKVs []
  · intro ns h
    injection h with h2; subst h2
    rfl
  -- encodeStrKVs cons
  · intro s v rest ihv ihrest ns h
    simp only [encodeStrKVs] at h
    cases hv : obj2hdf env v with
    | error e => rw [hv] at h; exact Except.noConfusion h
    | ok n =>
        rw [hv] at h
        rw [bindOk] at h
        cases hr : encodeStrKVs env rest with
        | error e => rw [hr] at h; exact Except.noConfusion h
        | ok ns2 =>
            rw [hr] at h
            rw [bindOk] at h
            injection h with h2; subst h2
            simp only [allChildrenP]
            rw [ihv n hv, ihrest ns2 hr]
            rfl

/-! ### Lemmas about `pySplit` and `pyJoin` -/

theorem pySplit_ne_nil (c : Char) (s : List Char) : pySplit c s ≠ [] := by
  cases s with
  | nil => simp [pySplit]
  | cons x xs =>
      simp only [pySplit]
      cases h : pySplit c xs with
      | nil => simp
      | cons p ps => by_cases hx : x = c <;> simp [hx]

theorem pySplit_cons (c x : Char) (xs p : List Char) (ps : List (List Char))
    (h : pySplit c xs = p :: ps) :
    pySplit c (x :: xs) = if x = c then [] :: p :: ps else (x :: p) :: ps := by
  simp only [pySplit]
  rw [h]

theorem pySplit_exists (c : Char) (s : List Char) :
    ∃ p ps, pySplit c s = p :: ps := by
  cases h : pySplit c s with
  | nil => exact absurd h (pySplit_ne_nil c s)
  | cons p ps => exact ⟨p, ps, rfl⟩

theorem pyJoin_cons_of_ne_nil (c : Char) (p : List Char) {ps : List (List Char)}
    (h : ps ≠ []) : pyJoin c (p :: ps) = p ++ c :: pyJoin c ps := by
  cases ps with
  | nil => exact absurd rfl h
  | cons q ps2 => rfl

theorem pyJoin_pySplit (c : Char) (s : List Char) : pyJoin c (pySplit c s) = s := by
  induction s with
  | nil => rfl
  | cons x xs ih =>
      obtain ⟨p, ps, h⟩ := pySplit_exists c xs
      rw [h] at ih
      rw [pySplit_cons c x xs p ps h]
      by_cases hx : x = c
      · rw [if_pos hx]
        rw [pyJoin_cons_of_ne_nil c [] (by simp)]
        rw [ih, hx]
        rfl
      · rw [if_neg hx]
        cases ps with
        | nil =>
            simp only [pyJoin] at ih ⊢
            rw [ih]
        | cons q ps2 =>
            rw [pyJoin_cons_of_ne_nil c (x :: p) (by simp)]
            rw [pyJoin_cons_of_ne_nil c p (by simp)] at ih
            rw [← ih]
            rfl

theorem pySplit_length (c : Char) (s : List Char) :
    (pySplit c s).length = s.count c + 1 := by
  induction s with
  | nil => rfl
  | cons x xs ih =>
      obtain ⟨p, ps, h⟩ := pySplit_exists c xs
      rw [h] at ih
      rw [pySplit_cons c x xs p ps h]
      by_cases hx : x = c
      · rw [if_pos hx]
        simp only [List.length_cons, List.count_cons] at ih ⊢
        simp [hx]
        omega
      · rw [if_neg hx]
        simp only [List.length_cons, List.count_cons] at ih ⊢
        have hb : (x == c) = false := by simp [hx]
        simp [hb]
        omega

theorem pySplit_count_zero (c : Char) (s : List Char) :
    ∀ p ∈ pySplit c s, p.count c = 0 := by
  induction s with
  | nil =>
      intro p hp
      simp [pySplit] at hp
      simp [hp]
  | cons x xs ih =>
      intro r hr
      obtain ⟨p, ps, h⟩ := pySplit_exists c xs
      rw [h] at ih
      rw [pySplit_cons c x xs p ps h] at hr
      by_cases hx : x = c
      · rw [if_pos hx] at hr
        simp only [List.mem_cons] at hr
        rcases hr with hr | hr | hr
        · simp [hr]
        · exact ih r (by simp [hr])
        · exact ih r (List.mem_cons_of_mem p hr)
      · rw [if_neg hx] at hr
        simp only [List.mem_cons] at hr
        rcases hr with hr | hr
        · subst hr
          have hp : p.count c = 0 := ih p (by simp)
          simp [List.count_cons, hx, hp]
        · exact ih r (List.mem_cons_of_mem p hr)

theorem pyJoin_take_drop (c : Char) :
    ∀ (parts : List (List Char)) (n : Nat), 0 < n → n < parts.length →
      pyJoin c (parts.take n) ++ c :: pyJoin c (parts.drop n) = pyJoin c parts := by
  intro parts
  induction parts with
  | nil => intro n h0 hlt; simp at hlt
  | cons p ps ih =>
      intro n h0 hlt
      match n, h0 with
      | Nat.succ m, _ =>
        have hps : m < ps.length := by simpa using hlt
        cases m with
        | zero =>
            have hne : ps ≠ [] := List.ne_nil_of_length_pos hps
            simp only [List.take_succ_cons, List.take_zero, List.drop_succ_cons,
              List.drop_zero]
            rw [pyJoin_cons_of_ne_nil c p hne]
            rfl
        | succ m2 =>
            have hne : ps ≠ [] := by
              intro hh; rw [hh] at hps; simp at hps
            have htne : ps.take (m2 + 1) ≠ [] := by
              cases ps with
              | nil => exact absurd rfl hne
              | cons q ps2 => simp
            simp only [List.take_succ_cons, List.drop_succ_cons]
            rw [pyJoin_cons_of_ne_nil c p htne, pyJoin_cons_of_ne_nil c p hne]
            rw [List.append_assoc]
            have hrec := ih (m2 + 1) (Nat.succ_pos _) hps
            rw [List.cons_append, hrec]

theorem pyJoin_count (c : Char) :
    ∀ (parts : List (List Char)), (∀ p ∈ parts, p.count c = 0) → parts ≠ [] →
      (pyJoin c parts).count c = parts.length - 1 := by
  intro parts
  induction parts with
  | nil => intro _ h; exact absurd rfl h
  | cons p ps ih =>
      intro hz _
      cases ps with
      | nil => simpa [pyJoin] using hz p (by simp)
      | cons q ps2 =>
          rw [pyJoin_cons_of_ne_nil c p (by simp)]
          have hp : p.count c = 0 := hz p (by simp)
          have hrest := ih (fun r hr => hz r (List.mem_cons_of_mem p hr)) (by simp)
          simp only [List.count_append, List.count_cons_self, hp, hrest, List.length_cons]
          omega

/-! ### The claims -/

/-- C1: the claimed exact-type round trip fails on the code: storing a
non-empty set or frozenset that is routed to the group-based encoding
(here a set containing a tuple) raises a TypeError, because the child
key comprehension of the set branch (h5obj_old.py line 113) applies
the `%` operator to the already-formatted key string a second time.
This contradicts the module's own docstring, which promises arbitrarily
nested sets and frozensets, so the claim is right and the code wrong. -/
theorem obj2hdf_nested_set_raises :
    obj2hdf envA (.pyset [.pytuple [.pyint 1, .pyint 2]]) =
      .error (.typeError "not all arguments converted during string formatting") ∧
    obj2hdf envA (.pyfrozenset [.pytuple [.pyint 1, .pyint 2]]) =
      .error (.typeError "not all arguments converted during string formatting") :=
  ⟨rfl, rfl⟩

/-- C3: the classifier test succeeds on a two-element list whose second
element is iterable — `_allscalar` returns inside the first loop
iteration (h5obj_old.py line 390), so only the first element's
iterability is inspected, contradicting both the claim and
`_allscalar`'s own docstring.  The elements are instances of two
`__slots__` classes that share the class name `A`, the second of which
defines `__iter__`. -/
theorem seqNativeTest_checks_only_first_element :
    seqNativeTest [.pyinst "A" false false 0, .pyinst "A" true false 1] = .ok true ∧
    [PyVal.pyinst "A" false false 0, PyVal.pyinst "A" true false 1].any isIterable = true :=
  ⟨rfl, rfl⟩

/-- C4: every empty list, tuple, set and frozenset is stored as a single
dataset holding the sentinel string `'__EMPTY__'` (never a group), and
decoding such a node returns the empty container of the original type —
not `None` and not a one-element container holding the sentinel. -/
theorem empty_container_sentinel_roundtrip (env : PickleEnv) (fn nm : String) :
    obj2hdf env (.pylist []) = .ok (.dset (mkAttrs env "list" false) (.pstr "__EMPTY__")) ∧
    obj2hdf env (.pytuple []) = .ok (.dset (mkAttrs env "tuple" false) (.pstr "__EMPTY__")) ∧
    obj2hdf env (.pyset []) = .ok (.dset (mkAttrs env "set" false) (.pstr "__EMPTY__")) ∧
    obj2hdf env (.pyfrozenset []) = .ok (.dset (mkAttrs env "frozenset" false) (.pstr "__EMPTY__")) ∧
    hdf2objNode env fn nm (.dset (mkAttrs env "list" false) (.pstr "__EMPTY__")) = .ok (.pylist []) ∧
    hdf2objNode env fn nm (.dset (mkAttrs env "tuple" false) (.pstr "__EMPTY__")) = .ok (.pytuple []) ∧
    hdf2objNode env fn nm (.dset (mkAttrs env "set" false) (.pstr "__EMPTY__")) = .ok (.pyset []) ∧
    hdf2objNode env fn nm (.dset (mkAttrs env "frozenset" false) (.pstr "__EMPTY__")) = .ok (.pyfrozenset []) ∧
    (Except.ok (PyVal.pylist []) : Except PyErr PyVal) ≠ .ok .pynone ∧
    (Except.ok (PyVal.pylist []) : Except PyErr PyVal) ≠ .ok (.pylist [.pystr "__EMPTY__"]) := by
  refine ⟨rfl, rfl, rfl, rfl, rfl, rfl, rfl, rfl, ?_, ?_⟩
  · intro h; simp at h
  · intro h; simp at h

/-- C6 counterexample: the source catches only `ValueError` (line 223).
On a pickled dataset whose payload fails to deserialize with
`cPickle.UnpicklingError` — as the payload `"junk"` does — the
exception propagates unchanged: the result is not the renamed
ValueError naming the dataset and the file, refuting the claim that
every deserialization failure is surfaced with an error naming them. -/
theorem unpickle_nonvalueerror_counterexample :
    hdf2objNode envU "f.h5" "d"
        (.dset ⟨some "str", some "str", some "t0", true⟩ (.pstr "junk")) =
      .error (.unpicklingError "invalid load key") ∧
    (Except.error (PyErr.unpicklingError "invalid load key") : Except PyErr PyVal) ≠
      .error (.valueError "cannot unpickle data \"d\" from file \"f.h5\"") := by
  refine ⟨rfl, ?_⟩
  intro h
  simp at h

/-- C6 (amended): decoding a node whose `__PICKLED__` attribute is true
and whose stored string cannot be deserialized raises an error: a
failure raising `ValueError` is caught and renamed to a ValueError
naming the offending dataset name and file, while a failure of any
other exception class (`UnpicklingError`, `EOFError`, `ImportError`,
...) propagates unchanged without naming them; in every failure case
the decoder raises and never returns a value — in particular never the
raw stored string. -/
theorem unpickle_failure_amended (env : PickleEnv) (fn nm s : String) (a : HAttrs)
    (hp : a.pickled = true) (hl : env.loads s = Option.none) :
    (∀ m, env.loadErr s = .valueError m →
      hdf2objNode env fn nm (.dset a (.pstr s)) =
        .error (.valueError ("cannot unpickle data \"" ++ nm ++ "\" from file \"" ++ fn ++ "\""))) ∧
    ((∀ m, env.loadErr s ≠ .valueError m) →
      hdf2objNode env fn nm (.dset a (.pstr s)) = .error (env.loadErr s)) ∧
    (∀ v : PyVal, hdf2objNode env fn nm (.dset a (.pstr s)) ≠ .ok v) := by
  have hbase : hdf2objNode env fn nm (.dset a (.pstr s)) = pickleFailure env fn nm s := by
    simp [hdf2objNode, decodeDset, dispatchOf, hp, decPickled, hl]
  refine ⟨?_, ?_, ?_⟩
  · intro m hm
    rw [hbase]
    simp [pickleFailure, hm]
  · intro hm
    rw [hbase]
    cases he : env.loadErr s with
    | valueError m => exact absurd he (hm m)
    | typeError m => simp [pickleFailure, he]
    | keyError m => simp [pickleFailure, he]
    | attributeError m => simp [pickleFailure, he]
    | indexError m => simp [pickleFailure, he]
    | unpicklingError m => simp [pickleFailure, he]
    | eofError m => simp [pickleFailure, he]
    | importError m => simp [pickleFailure, he]
  · intro v hv
    rw [hbase] at hv
    rw [pickleFailure] at hv
    cases he : env.loadErr s <;> rw [he] at hv <;> exact Except.noConfusion hv

/-- Witness for C6 (amended) at a concrete pickled node whose payload
`envA.loads` rejects with a `ValueError`. -/
theorem unpickle_failure_amended_check :
    envA.loads "junk" = Option.none ∧
    envA.loadErr "junk" = .valueError "insecure string pickle" ∧
    hdf2objNode envA "f.h5" "d"
        (.dset ⟨some "str", some "str", some "t0", true⟩ (.pstr "junk")) =
      .error (.valueError "cannot unpickle data \"d\" from file \"f.h5\"") :=
  ⟨rfl, rfl, (unpickle_failure_amended envA "f.h5" "d" "junk"
    ⟨some "str", some "str", some "t0", true⟩ rfl rfl).1 "insecure string pickle" rfl⟩

/-- C7: the simplified wrapper's `Group.__getitem__` with `unpickle`
enabled, applied to a dataset holding a string payload on which
deserialization fails, returns the raw stored string itself without
raising (the bare `except` of src/__init__.py line 91). -/
theorem wrapper_getitem_raw_string_fallback (env : PickleEnv)
    (ch : List (String × HNode)) (key s : String) (a : HAttrs)
    (hk : lookupChild key ch = some (.dset a (.pstr s)))
    (hl : env.loads s = Option.none) :
    wrapperGetItem env true true ch key = .ok (.value (.pystr s)) := by
  simp [wrapperGetItem, hk, hl]

/-- Witness for C7 at a concrete dataset. -/
theorem wrapper_getitem_raw_string_fallback_check :
    wrapperGetItem envA true true [("x", HNode.dset noAttrs (.pstr "junk"))] "x" =
      .ok (.value (.pystr "junk")) :=
  wrapper_getitem_raw_string_fallback envA
    [("x", HNode.dset noAttrs (.pstr "junk"))] "x" "junk" noAttrs rfl rfl

/-- C8: `h5save` on a combined path whose dataset already exists: without
`force` it fails with a message naming the combined path on the error
stream and exit status 1, and the filesystem is returned unchanged (the
file was only opened read-only); with `force` the existing dataset is
deleted and the new data stored in its place by the wrapper's
`__setitem__`. -/
theorem h5save_existing_dataset_behavior (env : PickleEnv)
    (fdpath filename dsetname : String)
    (d : PyVal) (pickleFlag : Bool) (fs : FileSys) (f0 : List (String × HNode))
    (h1 : filename ≠ "") (h2 : dsetname ≠ "")
    (hf : lookupChild filename fs = some f0)
    (hd : (lookupChild dsetname f0).isSome = true) :
    h5save env fdpath filename dsetname d false pickleFlag fs =
      .exitFail ("h5save: cannot save \"" ++ fdpath ++ "\": dataset exists") fs ∧
    h5save env fdpath filename dsetname d true pickleFlag fs =
      (match wrapperSetItem env pickleFlag (removeChild dsetname f0) dsetname d with
       | .ok f2 => .saved (setAssoc filename f2 fs)
       | .error e => .raised e (setAssoc filename (removeChild dsetname f0) fs)) := by
  constructor
  · simp [h5save, h1, h2, hf, hd]
  · simp [h5save, h1, h2, hf, hd]

/-- Witness for C8 at a one-file filesystem whose dataset `x` exists. -/
theorem h5save_existing_dataset_behavior_check :
    h5save envA "f.h5/x" "f.h5" "x" (.pyint 5) false true
        [("f.h5", [("x", HNode.dset noAttrs (.pint 1))])] =
      .exitFail "h5save: cannot save \"f.h5/x\": dataset exists"
        [("f.h5", [("x", HNode.dset noAttrs (.pint 1))])] :=
  (h5save_existing_dataset_behavior envA "f.h5/x" "f.h5" "x" (.pyint 5) true
    [("f.h5", [("x", HNode.dset noAttrs (.pint 1))])]
    [("x", HNode.dset noAttrs (.pint 1))]
    (by simp) (by simp) rfl rfl).1

/-- C9: every node created by `obj2hdf`, at every level of the
recursion, carries `__DTYPE__`, `__NTYPE__`, the timestamp and
`__PICKLED__`, and is either serialized or carries a `__DTYPE__` that
`hdf2obj`'s dispatch chain recognizes (selects a branch other than the
fallback); and the decoder's branch selection `hdf2objDispatch` is a
function of the attributes alone — equal attributes select equal
branches whatever the payload or children. -/
theorem encoder_metadata_invariant (env : PickleEnv) (v : PyVal) (nd : HNode)
    (h : obj2hdf env v = .ok nd) :
    allNodesP nodeMetaOk nd = true ∧
    ∀ (a : HAttrs) (p1 p2 : HPayload) (ch : List (String × HNode)),
      hdf2objDispatch (.dset a p1) = hdf2objDispatch (.dset a p2) ∧
      hdf2objDispatch (.dset a p1) = hdf2objDispatch (.group a ch) :=
  ⟨encode_meta env v nd h, fun _ _ _ _ => ⟨rfl, rfl⟩⟩

/-- Witness for C9 on the encoding of a heterogeneous list. -/
theorem encoder_metadata_invariant_check :
    obj2hdf envA (.pylist [.pyint 1, .pystr "a", .pynone]) =
      .ok (.group (mkAttrs envA "list" false)
        [("key0", .dset (mkAttrs envA "int" false) (.pint 1)),
         ("key1", .dset (mkAttrs envA "str" false) (.pstr "a")),
         ("key2", .dset (mkAttrs envA "NoneType" false) (.pstr "__NONE__"))]) ∧
    allNodesP nodeMetaOk
      (.group (mkAttrs envA "list" false)
        [("key0", .dset (mkAttrs envA "int" false) (.pint 1)),
         ("key1", .dset (mkAttrs envA "str" false) (.pstr "a")),
         ("key2", .dset (mkAttrs envA "NoneType" false) (.pstr "__NONE__"))]) = true :=
  ⟨rfl, (encoder_metadata_invariant envA (.pylist [.pyint 1, .pystr "a", .pynone]) _ rfl).1⟩

/-- C10: `divide(s, c, n)` for `1 ≤ n ≤ count(c, s)` returns parts with
`p1 ++ c ++ p2 == s`, `p1` holding exactly `n - 1` occurrences of `c`
and `p2` the remaining `count - n` — neither part contains the dividing
occurrence. -/
theorem divide_at_nth_occurrence (s : List Char) (c : Char) (n : Nat)
    (h1 : 1 ≤ n) (h2 : n ≤ s.count c) :
    (divide s c (n : Int)).1 ++ c :: (divide s c (n : Int)).2 = s ∧
    (divide s c (n : Int)).1.count c = n - 1 ∧
    (divide s c (n : Int)).2.count c = s.count c - n := by
  have hp1 : (divide s c (n : Int)).1 = pyJoin c ((pySplit c s).take n) := by
    simp [divide, pySliceTo]
  have hp2 : (divide s c (n : Int)).2 = pyJoin c ((pySplit c s).drop n) := by
    simp [divide, pySliceFrom]
  have hlen : (pySplit c s).length = s.count c + 1 := pySplit_length c s
  have hnlt : n < (pySplit c s).length := by omega
  refine ⟨?_, ?_, ?_⟩
  · rw [hp1, hp2, pyJoin_take_drop c (pySplit c s) n (by omega) hnlt,
      pyJoin_pySplit]
  · rw [hp1]
    have hz : ∀ r ∈ (pySplit c s).take n, r.count c = 0 :=
      fun r hr => pySplit_count_zero c s r (List.take_subset n (pySplit c s) hr)
    have hlt : ((pySplit c s).take n).length = n := by
      rw [List.length_take]
      omega
    have hne : (pySplit c s).take n ≠ [] := by
      apply List.ne_nil_of_length_pos
      omega
    rw [pyJoin_count c _ hz hne, hlt]
  · rw [hp2]
    have hz : ∀ r ∈ (pySplit c s).drop n, r.count c = 0 :=
      fun r hr => pySplit_count_zero c s r (List.drop_subset n (pySplit c s) hr)
    have hlt : ((pySplit c s).drop n).length = s.count c + 1 - n := by
      rw [List.length_drop]
      omega
    have hne : (pySplit c s).drop n ≠ [] := by
      apply List.ne_nil_of_length_pos
      omega
    rw [pyJoin_count c _ hz hne, hlt]
    omega

/-- Witness for C10 on the docstring's own example,
`divide("a/b/c/d", "/", 1) == ("a", "b/c/d")`. -/
theorem divide_at_nth_occurrence_check :
    divide ['a', '/', 'b', '/', 'c', '/', 'd'] '/' (1 : Int) = (['a'], ['b', '/', 'c', '/', 'd']) ∧
    ['a'] ++ '/' :: ['b', '/', 'c', '/', 'd'] = ['a', '/', 'b', '/', 'c', '/', 'd'] ∧
    List.count '/' ['a'] = 0 := by
  refine ⟨rfl, ?_, rfl⟩
  exact (divide_at_nth_occurrence ['a', '/', 'b', '/', 'c', '/', 'd'] '/' 1
    (by decide) (by decide)).1

theorem decode_scrubNty (env : PickleEnv) (fn : String) (nd : HNode) :
    ∀ nm, hdf2objNode env fn nm (scrubNty nd) = hdf2objNode env fn nm nd := by
  refine scrubNty.induct
    (fun nd => ∀ nm, hdf2objNode env fn nm (scrubNty nd) = hdf2objNode env fn nm nd)
    (fun ch => decodeChildren env fn (scrubChildren ch) = decodeChildren env fn ch)
    ?_ ?_ ?_ ?_ nd
  · intro a p nm
    rfl
  · intro a ch ih nm
    have hds : dispatchOf (scrubAttrs a) = dispatchOf a := rfl
    simp only [scrubNty, hdf2objNode, hds, ih]
  · rfl
  · intro k nd2 rest ih1 ih2
    simp only [scrubChildren, decodeChildren, ih1 k, ih2]

theorem encodeKVsPy_spec (env : PickleEnv) : ∀ kvs ns, encodeKVsPy env kvs = .ok ns →
    kvs.map (fun kv => kv.1) = ns.map (fun p => PyKey.kstr p.1) ∧
    List.Forall₂ (fun (kv : PyKey × PyVal) (p : String × HNode) =>
      obj2hdf env kv.2 = .ok p.2) kvs ns := by
  intro kvs
  induction kvs with
  | nil =>
      intro ns h
      injection h with h2; subst h2
      exact ⟨rfl, List.Forall₂.nil⟩
  | cons kv rest ih =>
      intro ns h
      match kv with
      | (PyKey.kstr s, v) =>
          simp only [encodeKVsPy] at h
          cases hv : obj2hdf env v with
          | error e => rw [hv] at h; exact Except.noConfusion h
          | ok n =>
              rw [hv] at h
              rw [bindOk] at h
              cases hr : encodeKVsPy env rest with
              | error e => rw [hr] at h; exact Except.noConfusion h
              | ok ns2 =>
                  rw [hr] at h
                  rw [bindOk] at h
                  injection h with h2; subst h2
                  refine ⟨?_, List.Forall₂.cons hv (ih ns2 hr).2⟩
                  simp only [List.map_cons, (ih ns2 hr).1]
      | (PyKey.kint n2, v) =>
          simp only [encodeKVsPy] at h
          exact Except.noConfusion h

theorem allNodesP_imp (p q : HAttrs → Bool) (hpq : ∀ a2, p a2 = true → q a2 = true)
    (nd : HNode) : allNodesP p nd = true → allNodesP q nd = true := by
  refine allNodesP.induct p
    (fun nd => allNodesP p nd = true → allNodesP q nd = true)
    (fun ch => allChildrenP p ch = true → allChildrenP q ch = true)
    ?_ ?_ ?_ ?_ nd
  · intro a p2 h
    exact hpq a h
  · intro a ch ih h
    simp only [allNodesP, Bool.and_eq_true] at h ⊢
    exact ⟨hpq a h.1, ih h.2⟩
  · intro h
    rfl
  · intro k nd2 rest ih1 ih2 h
    simp only [allChildrenP, Bool.and_eq_true] at h ⊢
    exact ⟨ih1 h.1, ih2 h.2⟩

theorem nodeMetaOk_nty (a2 : HAttrs) (h : nodeMetaOk a2 = true) :
    (a2.nty == some "str") = true := by
  simp only [nodeMetaOk, Bool.and_eq_true] at h
  exact h.1.1.2

/-- C5 counterexample: decoding a dict group whose single child is
named `"1"` with `__NTYPE__` set to `"int"` yields the key as the plain
string `"1"`, not the int `1` the claim promises (the evaluation of
stored names via `__NTYPE__` is commented out in the source, lines
304-310); and a mapping with the non-string key `1` is not encoded
successfully but raises the keyword-expansion TypeError. -/
theorem dict_ntype_counterexample :
    hdf2objNode envA "f.h5" "d"
        (.group ⟨some "dict", some "str", some "t0", false⟩
          [("1", .dset ⟨some "int", some "int", some "t0", false⟩ (.pint 2))]) =
      .ok (.pydict [(.kstr "1", .pyint 2)]) ∧
    PyVal.pydict [(.kstr "1", .pyint 2)] ≠ PyVal.pydict [(.kint 1, .pyint 2)] ∧
    obj2hdf envA (.pydict [(.kint 1, .pyint 2)]) =
      .error (.typeError "keywords must be strings") := by
  refine ⟨rfl, ?_, rfl⟩
  intro h
  simp at h

/-- C5 (amended): a mapping whose keys are all strings is encoded as a
Group Node keyed by the mapping's own keys, each value recursively
encoded, with `__NTYPE__` recorded as `"str"` on the group and all its
children (names reach the encoder as keyword strings); a mapping with
any non-string key fails to encode with `TypeError: keywords must be
strings`; and `hdf2obj` rebuilds a dict keyed by the stored child names
as plain strings — `__NTYPE__` is read but never consulted, so keys are
not evaluated back to their original types. -/
theorem dict_group_encoding_amended (env : PickleEnv) (fn nm : String)
    (kvs kvs2 : List (PyKey × PyVal)) (ns : List (String × HNode))
    (a : HAttrs) (ch : List (String × HNode)) (ps : List (String × PyVal))
    (hk : hasNonStrKey kvs = false)
    (he : encodeKVsPy env kvs = .ok ns)
    (hk2 : hasNonStrKey kvs2 = true)
    (hpk : a.pickled = false) (hdt : a.dty = some "dict")
    (hdc : decodeChildren env fn ch = .ok ps) :
    obj2hdf env (.pydict kvs) = .ok (.group (mkAttrs env "dict" false) ns) ∧
    kvs.map (fun kv => kv.1) = ns.map (fun p => PyKey.kstr p.1) ∧
    List.Forall₂ (fun (kv : PyKey × PyVal) (p : String × HNode) =>
      obj2hdf env kv.2 = .ok p.2) kvs ns ∧
    allNodesP (fun a2 => a2.nty == some "str") (.group (mkAttrs env "dict" false) ns) = true ∧
    obj2hdf env (.pydict kvs2) = .error (.typeError "keywords must be strings") ∧
    hdf2objNode env fn nm (.group a ch) =
      .ok (.pydict (ps.map (fun p => (PyKey.kstr p.1, p.2)))) ∧
    hdf2objNode env fn nm (scrubNty (.group a ch)) = hdf2objNode env fn nm (.group a ch) := by
  have henc : obj2hdf env (.pydict kvs) = .ok (.group (mkAttrs env "dict" false) ns) := by
    simp only [obj2hdf]
    rw [if_neg (by simp [hk]), he, bindOk]
  refine ⟨henc, (encodeKVsPy_spec env kvs ns he).1, (encodeKVsPy_spec env kvs ns he).2, ?_, ?_, ?_, ?_⟩
  · exact allNodesP_imp nodeMetaOk (fun a2 => a2.nty == some "str") nodeMetaOk_nty
      _ (encode_meta env (.pydict kvs) _ henc)
  · simp only [obj2hdf]
    rw [if_pos hk2]
  · have hds : dispatchOf a = DecodeKind.dictK := by
      obtain ⟨dty, nty, date2, pk⟩ := a
      change pk = false at hpk
      change dty = some "dict" at hdt
      subst hpk
      subst hdt
      rfl
    simp only [hdf2objNode, hds, hdc, bindOk]
  · exact decode_scrubNty env fn (.group a ch) nm

/-- Witness for C5 (amended) at a one-entry string-keyed dict, a
one-entry int-keyed dict, and a concrete dict group. -/
theorem dict_group_encoding_amended_check :
    obj2hdf envA (.pydict [(.kstr "a", .pyint 1)]) =
      .ok (.group (mkAttrs envA "dict" false)
        [("a", .dset (mkAttrs envA "int" false) (.pint 1))]) ∧
    obj2hdf envA (.pydict [(.kint 1, .pyint 2)]) =
      .error (.typeError "keywords must be strings") ∧
    hdf2objNode envA "f.h5" "d"
        (.group ⟨some "dict", some "str", some "t0", false⟩
          [("x", .dset ⟨some "int", some "int", some "t0", false⟩ (.pint 2))]) =
      .ok (.pydict [(.kstr "x", .pyint 2)]) := by
  have h := dict_group_encoding_amended envA "f.h5" "d"
    [(.kstr "a", .pyint 1)] [(.kint 1, .pyint 2)]
    [("a", .dset (mkAttrs envA "int" false) (.pint 1))]
    ⟨some "dict", some "str", some "t0", false⟩
    [("x", .dset ⟨some "int", some "int", some "t0", false⟩ (.pint 2))]
    [("x", .pyint 2)]
    rfl rfl rfl rfl rfl rfl
  exact ⟨h.1, h.2.2.2.2.1, h.2.2.2.2.2.1⟩

/-! ### Ordinal key ordering (C2) -/

theorem decAux_eq : ∀ (fuel m : Nat), m ≤ fuel →
    decAux fuel m = ((Nat.digits 10 m).map Nat.digitChar).reverse := by
  intro fuel
  induction fuel with
  | zero =>
      intro m h
      interval_cases m
      simp [decAux]
  | succ f ih =>
      intro m h
      cases m with
      | zero => simp [decAux]
      | succ m2 =>
          have hdiv : (m2 + 1) / 10 ≤ f := by
            have h1 : (m2 + 1) / 10 < m2 + 1 := Nat.div_lt_self (Nat.succ_pos m2) (by norm_num)
            omega
          have hd : Nat.digits 10 (m2 + 1) = (m2 + 1) % 10 :: Nat.digits 10 ((m2 + 1) / 10) :=
            Nat.digits_def' (by norm_num) (Nat.succ_pos m2)
          rw [decAux, ih ((m2 + 1) / 10) hdiv, hd]
          simp

theorem decRepr_of_pos (m : Nat) (h : 0 < m) :
    decRepr m = ((Nat.digits 10 m).map Nat.digitChar).reverse := by
  rw [decRepr, if_neg (Nat.pos_iff_ne_zero.mp h)]
  exact decAux_eq m m le_rfl

theorem pyLen_of_pos (m : Nat) (h : 0 < m) : pyLen m = (Nat.digits 10 m).length := by
  rw [pyLen, decRepr_of_pos m h]
  simp

theorem pyLen_one_le (m : Nat) : 1 ≤ pyLen m := by
  cases Nat.eq_zero_or_pos m with
  | inl h => subst h; rfl
  | inr h =>
      rw [pyLen_of_pos m h]
      exact List.length_pos.mpr (Nat.digits_ne_nil_iff_ne_zero.mpr (Nat.pos_iff_ne_zero.mp h))

theorem lt_pow_pyLen (k m : Nat) (h : k ≤ m) : k < 10 ^ pyLen m := by
  cases Nat.eq_zero_or_pos m with
  | inl h0 =>
      subst h0
      interval_cases k
      norm_num [pyLen]
  | inr h0 =>
      rw [pyLen_of_pos m h0, Nat.digits_len 10 m (by norm_num) (Nat.pos_iff_ne_zero.mp h0)]
      calc k ≤ m := h
        _ < 10 ^ (Nat.log 10 m + 1) := Nat.lt_pow_succ_log_self (by norm_num) m

theorem pyLen_mono (k m : Nat) (h : k ≤ m) : pyLen k ≤ pyLen m := by
  cases Nat.eq_zero_or_pos k with
  | inl h0 =>
      subst h0
      exact pyLen_one_le m
  | inr h0 =>
      have hm : 0 < m := lt_of_lt_of_le h0 h
      rw [pyLen_of_pos k h0, pyLen_of_pos m hm]
      exact Nat.le_digits_len_le 10 k m h

theorem decDigits_snoc : ∀ (w k : Nat),
    decDigits (w + 1) k = decDigits w (k / 10) ++ [k % 10] := by
  intro w
  induction w with
  | zero =>
      intro k
      simp [decDigits]
  | succ w2 ih =>
      intro k
      have h1 : decDigits (w2 + 1 + 1) k = (k / 10 ^ (w2 + 1)) % 10 :: decDigits (w2 + 1) k := rfl
      rw [h1, ih k]
      have h2 : decDigits (w2 + 1) (k / 10) =
          ((k / 10) / 10 ^ w2) % 10 :: decDigits w2 (k / 10) := rfl
      rw [h2]
      have h3 : k / 10 / 10 ^ w2 = k / 10 ^ (w2 + 1) := by
        rw [Nat.div_div_eq_div_mul]
        ring_nf
      rw [h3]
      rfl

theorem decDigits_lt10 : ∀ (w k : Nat), ∀ d ∈ decDigits w k, d < 10 := by
  intro w
  induction w with
  | zero => intro k d hd; simp [decDigits] at hd
  | succ w2 ih =>
      intro k d hd
      simp only [decDigits, List.mem_cons] at hd
      rcases hd with hd | hd
      · subst hd; exact Nat.mod_lt _ (by norm_num)
      · exact ih k d hd

theorem decDigits_eq_pad : ∀ (w k : Nat), (Nat.digits 10 k).length ≤ w →
    decDigits w k = List.replicate (w - (Nat.digits 10 k).length) 0 ++ (Nat.digits 10 k).reverse := by
  intro w
  induction w with
  | zero =>
      intro k h
      simp only [Nat.le_zero, List.length_eq_zero] at h
      simp [decDigits, h]
  | succ w2 ih =>
      intro k h
      cases Nat.eq_zero_or_pos k with
      | inl h0 =>
          subst h0
          have h1 : decDigits (w2 + 1) 0 = 0 :: decDigits w2 0 := by
            simp [decDigits]
          rw [h1, ih 0 (by simp)]
          simp [List.replicate_succ]
      | inr h0 =>
          have hd : Nat.digits 10 k = k % 10 :: Nat.digits 10 (k / 10) :=
            Nat.digits_def' (by norm_num) h0
          have hlen : (Nat.digits 10 (k / 10)).length ≤ w2 := by
            rw [hd] at h
            simpa using h
          rw [decDigits_snoc, ih (k / 10) hlen, hd]
          simp only [List.length_cons, List.reverse_cons]
          rw [List.append_assoc]
          have : w2 + 1 - ((Nat.digits 10 (k / 10)).length + 1) =
              w2 - (Nat.digits 10 (k / 10)).length := by omega
          rw [this]

theorem decDigits_lex : ∀ (w i j : Nat), i < j → i / 10 ^ w = j / 10 ^ w →
    List.Lex (· < ·) (decDigits w i) (decDigits w j) := by
  intro w
  induction w with
  | zero =>
      intro i j hij hq
      simp only [pow_zero, Nat.div_one] at hq
      omega
  | succ w2 ih =>
      intro i j hij hq
      have hle : i / 10 ^ w2 ≤ j / 10 ^ w2 := Nat.div_le_div_right (le_of_lt hij)
      have hdd : i / 10 ^ w2 / 10 = j / 10 ^ w2 / 10 := by
        rw [Nat.div_div_eq_div_mul, Nat.div_div_eq_div_mul, ← pow_succ]
        exact hq
      rcases Nat.lt_or_ge (i / 10 ^ w2) (j / 10 ^ w2) with hlt | hge
      · have hmod : (i / 10 ^ w2) % 10 < (j / 10 ^ w2) % 10 := by
          have e1 := Nat.div_add_mod (i / 10 ^ w2) 10
          have e2 := Nat.div_add_mod (j / 10 ^ w2) 10
          omega
        exact List.Lex.rel hmod
      · have heq : i / 10 ^ w2 = j / 10 ^ w2 := le_antisymm hle hge
        rw [show decDigits (w2 + 1) i = (i / 10 ^ w2) % 10 :: decDigits w2 i from rfl,
          show decDigits (w2 + 1) j = (j / 10 ^ w2) % 10 :: decDigits w2 j from rfl,
          heq]
        exact List.Lex.cons (ih i j hij heq)

end H5Obj

namespace H5Obj

theorem pad_eq_decDigits (w k : Nat) (h : pyLen k ≤ w) :
    pyZeroPad w (decRepr k) = (decDigits w k).map Nat.digitChar := by
  cases Nat.eq_zero_or_pos k with
  | inl h0 =>
      subst h0
      have hd : Nat.digits 10 0 = [] := Nat.digits_zero 10
      rw [pyZeroPad, decDigits_eq_pad w 0 (by simp [hd])]
      simp only [hd, List.length_nil, Nat.sub_zero, List.reverse_nil, List.append_nil,
        List.map_replicate]
      have h1 : pyLen 0 = 1 := rfl
      rw [h1] at h
      show List.replicate (w - (decRepr 0).length) '0' ++ decRepr 0 = List.replicate w '0'
      have h2 : decRepr 0 = ['0'] := rfl
      rw [h2]
      have h3 : w = (w - 1) + 1 := by omega
      rw [h3]
      rw [List.replicate_succ']
      simp
  | inr h0 =>
      have hL : pyLen k = (Nat.digits 10 k).length := pyLen_of_pos k h0
      rw [pyZeroPad, decRepr_of_pos k h0, decDigits_eq_pad w k (by omega)]
      simp only [List.map_append, List.map_replicate, List.map_reverse]
      have hdc : Nat.digitChar 0 = '0' := rfl
      rw [hdc]
      congr 2
      simp only [List.length_reverse, List.length_map]

theorem digitChar_lt {a b : Nat} (ha : a < 10) (hb : b < 10) (h : a < b) :
    Nat.digitChar a < Nat.digitChar b := by
  have key : ∀ x y : Fin 10, x.val < y.val → Nat.digitChar x.val < Nat.digitChar y.val := by
    decide
  exact key ⟨a, ha⟩ ⟨b, hb⟩ h

theorem lex_map_digitChar : ∀ (l1 l2 : List Nat), (∀ d ∈ l1, d < 10) → (∀ d ∈ l2, d < 10) →
    List.Lex (· < ·) l1 l2 →
    List.Lex (· < ·) (l1.map Nat.digitChar) (l2.map Nat.digitChar) := by
  intro l1 l2 h1 h2 h
  induction h with
  | nil => exact List.Lex.nil
  | @cons a as bs hab ih =>
      exact List.Lex.cons (ih (fun d hd => h1 d (List.mem_cons_of_mem a hd))
        (fun d hd => h2 d (List.mem_cons_of_mem a hd)))
  | @rel a as b bs hab =>
      exact List.Lex.rel (digitChar_lt (h1 a (by simp)) (h2 b (by simp)) hab)

theorem lexLtB_iff : ∀ (l1 l2 : List Char),
    lexLtB l1 l2 = true ↔ List.Lex (· < ·) l1 l2 := by
  intro l1
  induction l1 with
  | nil =>
      intro l2
      cases l2 with
      | nil => simp [lexLtB]
      | cons b bs =>
          simp only [lexLtB]
          exact ⟨fun _ => List.Lex.nil, fun _ => trivial⟩
  | cons a as ih =>
      intro l2
      cases l2 with
      | nil =>
          simp only [lexLtB]
          constructor
          · intro h; exact absurd h (by simp)
          · intro h; cases h
      | cons b bs =>
          simp only [lexLtB, Bool.or_eq_true, Bool.and_eq_true, decide_eq_true_eq]
          constructor
          · intro h
            rcases h with h | ⟨hab, h⟩
            · exact List.Lex.rel h
            · subst hab
              exact List.Lex.cons ((ih bs).mp h)
          · intro h
            cases h with
            | cons h2 => exact Or.inr ⟨rfl, (ih bs).mpr h2⟩
            | rel h2 => exact Or.inl h2

theorem lex_asymm : ∀ {l1 l2 : List Char}, List.Lex (· < ·) l1 l2 →
    ¬ List.Lex (· < ·) l2 l1 := by
  intro l1 l2 h
  induction h with
  | nil =>
      intro h2
      cases h2
  | @cons a as bs h2 ih =>
      intro h3
      cases h3 with
      | cons h4 => exact ih h4
      | rel h4 => exact lt_irrefl a h4
  | @rel a as b bs h2 =>
      intro h3
      cases h3 with
      | cons h4 => exact lt_irrefl a h2
      | rel h4 => exact lt_asymm h2 h4

end H5Obj

namespace H5Obj

theorem seqKey_data (w k : Nat) :
    (seqKey w k).data = ['k', 'e', 'y'] ++ pyZeroPad w (decRepr k) := rfl

theorem seqKey_length (w k : Nat) (h : pyLen k ≤ w) :
    (seqKey w k).data.length = 3 + w := by
  rw [seqKey_data]
  have hlen : (decRepr k).length = pyLen k := rfl
  simp [pyZeroPad, hlen]
  omega

theorem seqKey_lex (w i j : Nat) (hij : i < j) (hjw : j < 10 ^ w)
    (hi : pyLen i ≤ w) (hj : pyLen j ≤ w) :
    List.Lex (· < ·) (seqKey w i).data (seqKey w j).data := by
  rw [seqKey_data, seqKey_data, pad_eq_decDigits w i hi, pad_eq_decDigits w j hj]
  apply List.Lex.append_left
  apply lex_map_digitChar _ _ (decDigits_lt10 w i) (decDigits_lt10 w j)
  apply decDigits_lex w i j hij
  rw [Nat.div_eq_of_lt (lt_trans hij hjw), Nat.div_eq_of_lt hjw]

theorem seqKeys_pairwise (n : Nat) (hn : 1 ≤ n) :
    List.Pairwise (fun a b : String => List.Lex (· < ·) a.data b.data) (seqKeys n) := by
  have h1 : (if n > 0 then pyLen (n - 1) else 1) = pyLen (n - 1) := if_pos (by omega)
  simp only [seqKeys, h1]
  rw [List.pairwise_map]
  refine List.Pairwise.imp_of_mem ?_ (List.pairwise_lt_range n)
  intro i j hi hj hij
  rw [List.mem_range] at hi hj
  exact seqKey_lex (pyLen (n - 1)) i j hij
    (lt_pow_pyLen j (n - 1) (by omega))
    (pyLen_mono i (n - 1) (by omega))
    (pyLen_mono j (n - 1) (by omega))

theorem pairwise_zip {α β : Type} (R : α → α → Prop) :
    ∀ (ks : List α) (vs : List β), List.Pairwise R ks →
      List.Pairwise (fun p q : α × β => R p.1 q.1) (ks.zip vs) := by
  intro ks
  induction ks with
  | nil => intro vs h; simp
  | cons k ks ih =>
      intro vs h
      cases vs with
      | nil => simp
      | cons v vs2 =>
          rw [List.zip_cons_cons]
          refine List.Pairwise.cons ?_ (ih vs2 (List.pairwise_cons.mp h).2)
          intro q hq
          obtain ⟨q1, q2⟩ := q
          exact (List.pairwise_cons.mp h).1 q1 (List.of_mem_zip hq).1

theorem sortPairs_eq_self {α : Type} (ps : List (String × α))
    (h : List.Pairwise (fun p q : String × α => List.Lex (· < ·) p.1.data q.1.data) ps) :
    sortPairs ps = ps := by
  apply List.Sorted.insertionSort_eq
  refine List.Pairwise.imp ?_ h
  intro p q hpq
  cases hb : lexLtB q.1.data p.1.data with
  | false => rfl
  | true => exact absurd ((lexLtB_iff _ _).mp hb) (lex_asymm hpq)

/-- C2: the ordinal child keys of a sequence stored as a group have
the fixed width `len(str(length-1))` (at least 1) after the `"key"`
prefix, are strictly increasing in the byte-wise lexicographic string
order, and therefore the sort that `hdf2obj` performs on the (name,
child) pairs of such a group (`sortPairs`, the model of `keys.sort()`)
leaves them in the original element order, for sequences of every
length including the 10/11 zero-padding boundary. -/
theorem seq_group_keys_order (n i j k : Nat) (vs : List PyVal)
    (hn : 1 ≤ n) (hk : k < n) (hij : i < j) (hj : j < n) :
    1 ≤ pyLen (n - 1) ∧
    (seqKey (pyLen (n - 1)) k).data.length = 3 + pyLen (n - 1) ∧
    lexLtB (seqKey (pyLen (n - 1)) i).data (seqKey (pyLen (n - 1)) j).data = true ∧
    seqKeys n = (List.range n).map (fun k2 => seqKey (pyLen (n - 1)) k2) ∧
    sortPairs ((seqKeys n).zip vs) = (seqKeys n).zip vs := by
  have h1 : (if n > 0 then pyLen (n - 1) else 1) = pyLen (n - 1) := if_pos (by omega)
  refine ⟨pyLen_one_le (n - 1), ?_, ?_, ?_, ?_⟩
  · exact seqKey_length (pyLen (n - 1)) k (pyLen_mono k (n - 1) (by omega))
  · exact (lexLtB_iff _ _).mpr (seqKey_lex (pyLen (n - 1)) i j hij
      (lt_pow_pyLen j (n - 1) (by omega))
      (pyLen_mono i (n - 1) (by omega))
      (pyLen_mono j (n - 1) (by omega)))
  · simp only [seqKeys, h1]
  · exact sortPairs_eq_self _ (pairwise_zip _ (seqKeys n) vs (seqKeys_pairwise n hn))

/-- Witness for C2 at the 10/11 boundary: a heterogeneous sequence of
length 11 gets two-digit zero-padded keys, and sorting the (name,
child) pairs is the identity. -/
theorem seq_group_keys_order_check :
    seqKeys 11 = ["key00", "key01", "key02", "key03", "key04", "key05",
      "key06", "key07", "key08", "key09", "key10"] ∧
    sortPairs ((seqKeys 11).zip (List.replicate 11 PyVal.pynone)) =
      (seqKeys 11).zip (List.replicate 11 PyVal.pynone) :=
  ⟨rfl, (seq_group_keys_order 11 1 10 10 (List.replicate 11 PyVal.pynone)
    (by decide) (by decide) (by decide) (by decide)).2.2.2.2⟩

end H5Obj
